import Mathlib


/-!
Verification of the protocol core of the matrix-workers homeserver.

The definitions below are a shallow embedding of the TypeScript sources:

* src/utils/crypto.ts          (canonical JSON, signJson, verifySignature)
* src/services/event-auth.ts   (authorization rules)
* src/services/room-versions.ts
* src/services/state-resolution.ts and state-resolution-v1.ts
* src/services/federation-keys.ts and src/services/power-levels.ts

Modelling conventions:

* JavaScript numbers are modelled as integers extended with the three
  non-finite values NaN, Infinity and -Infinity (power levels, depths and
  timestamps in the sources are integers; `JSON.stringify` renders the
  non-finite values as "null", which the model reproduces).  Under this
  numeric domain `Number.isInteger` is identically true.
* JavaScript objects are association lists with unique keys; `Map` objects
  are association lists over pair keys with insertion-order semantics.
  The state-map key `type + "\x00" + state_key` of event-auth.ts is
  modelled as the pair `(type, state_key)`; the concatenation is injective
  for NUL-free event types, so the pair is an equivalent key.
* `async` network and database effects are modelled by explicit
  environment records; a thrown exception is an `Except.error`.
* Ed25519 and base64 primitives are opaque oracles carried in a
  `CryptoEnv`; decoding and verification may fail, matching the
  exceptions of the Web Crypto API.
-/

/-- JavaScript number: an integer, or one of the non-finite values. -/
inductive JsNum where
  | int (n : Int) : JsNum
  | nan : JsNum
  | inf : JsNum
  | ninf : JsNum
deriving DecidableEq, Repr


/-- Rendering of a number by JSON.stringify: non-finite numbers become null. -/
def jsNumToString : JsNum → String
  | .int n => toString n
  | .nan => "null"
  | .inf => "null"
  | .ninf => "null"


mutual
/-- A JSON value as handled by canonicalJson in src/utils/crypto.ts. -/
inductive JsonValue where
  | null : JsonValue
  | bool (b : Bool) : JsonValue
  | num (n : JsNum) : JsonValue
  | str (s : String) : JsonValue
  | arr (a : JsonArray) : JsonValue
  | obj (o : JsonObject) : JsonValue
/-- A JSON array (spine of values). -/
inductive JsonArray where
  | nil : JsonArray
  | cons (v : JsonValue) (rest : JsonArray) : JsonArray
/-- A JSON object: key-value entries in insertion order, keys unique. -/
inductive JsonObject where
  | nil : JsonObject
  | cons (k : String) (v : JsonValue) (rest : JsonObject) : JsonObject
end


/-- Digits for hexadecimal rendering of escaped control characters. -/
def hexDigit (n : Nat) : Char :=
  if n < 10 then Char.ofNat (48 + n) else Char.ofNat (87 + n)


/-- Escape of one character inside a JSON string literal (JSON.stringify). -/
def jsonEscapeChar (c : Char) : String :=
  if c = '"' then "\\\""
  else if c = '\\' then "\\\\"
  else if c = '\n' then "\\n"
  else if c = '\t' then "\\t"
  else if c = '\r' then "\\r"
  else if c.toNat < 32 then
    "\\u00" ++ String.singleton (hexDigit (c.toNat / 16)) ++
      String.singleton (hexDigit (c.toNat % 16))
  else String.singleton c


/-- JSON.stringify of a string value. -/
def jsonQuote (s : String) : String :=
  "\"" ++ String.join (s.data.map jsonEscapeChar) ++ "\""


/-- Stable insertion of an element into a list, before the first element it
compares less-or-equal to; auxiliary for the stable sort used to model
Array.prototype.sort. -/
def insertSorted (le : α → α → Bool) (a : α) : List α → List α
  | [] => [a]
  | b :: r => if le a b then a :: b :: r else b :: insertSorted le a r


/-- Stable sort by a boolean comparison, modelling Array.prototype.sort with
a consistent comparator. -/
def isortBy (le : α → α → Bool) : List α → List α
  | [] => []
  | a :: r => insertSorted le a (isortBy le r)


mutual
/-- Canonical JSON encoder of src/utils/crypto.ts.  `Object.keys(o).sort()`
followed by a per-key lookup is modelled by rendering the entries in
insertion order and sorting the rendered (key, rendered-value) pairs by key;
for JavaScript objects the keys are unique, so the two coincide. -/
def canonicalJson : JsonValue → String
  | .null => "null"
  | .bool b => if b then "true" else "false"
  | .num n => jsNumToString n
  | .str s => jsonQuote s
  | .arr a => "[" ++ String.intercalate "," (canonicalJsonArray a) ++ "]"
  | .obj o =>
    "\x7b" ++
      String.intercalate ","
        ((isortBy (fun p q => decide (p.1 ≤ q.1)) (canonicalJsonPairs o)).map
          (fun p => jsonQuote p.1 ++ ":" ++ p.2)) ++
      "\x7d"
/-- Rendered array items in order. -/
def canonicalJsonArray : JsonArray → List String
  | .nil => []
  | .cons v rest => canonicalJson v :: canonicalJsonArray rest
/-- Rendered object entries (key, rendered value) in insertion order. -/
def canonicalJsonPairs : JsonObject → List (String × String)
  | .nil => []
  | .cons k v rest => (k, canonicalJson v) :: canonicalJsonPairs rest
end


mutual
/-- Replacement of every non-finite number by null, structurally. -/
def sanitizeNonFinite : JsonValue → JsonValue
  | .null => .null
  | .bool b => .bool b
  | .num n => match n with
      | .int m => .num (.int m)
      | .nan => .null
      | .inf => .null
      | .ninf => .null
  | .str s => .str s
  | .arr a => .arr (sanitizeNonFiniteArray a)
  | .obj o => .obj (sanitizeNonFiniteObject o)
/-- Sanitization mapped over an array. -/
def sanitizeNonFiniteArray : JsonArray → JsonArray
  | .nil => .nil
  | .cons v rest => .cons (sanitizeNonFinite v) (sanitizeNonFiniteArray rest)
/-- Sanitization mapped over object values. -/
def sanitizeNonFiniteObject : JsonObject → JsonObject
  | .nil => .nil
  | .cons k v rest => .cons k (sanitizeNonFinite v) (sanitizeNonFiniteObject rest)
end


/-- Lookup of a key in a JavaScript object (first matching entry). -/
def JsonObject.lookup : JsonObject → String → Option JsonValue
  | .nil, _ => none
  | .cons k v rest, key => if k = key then some v else rest.lookup key


/-- The delete operator: removal of a key from an object. -/
def JsonObject.erase : JsonObject → String → JsonObject
  | .nil, _ => .nil
  | .cons k v rest, key => if k = key then rest.erase key else .cons k v (rest.erase key)


/-- Spread-update: the object with key bound to v, replacing an existing
entry in place or appending a new one, as in a spread literal with a final
computed key. -/
def JsonObject.setKey : JsonObject → String → JsonValue → JsonObject
  | .nil, key, v => .cons key v .nil
  | .cons k w rest, key, v =>
    if k = key then .cons key v rest else .cons k w (rest.setKey key v)


/-- JavaScript falsiness of a value (undefined is an absent Option). -/
def jsFalsyVal : JsonValue → Bool
  | .null => true
  | .bool b => !b
  | .num (.int n) => n = 0
  | .num .nan => true
  | .num .inf => false
  | .num .ninf => false
  | .str s => s = ""
  | .arr _ => false
  | .obj _ => false


/-- Property access on an arbitrary value: objects look up the key, any
other value yields undefined. -/
def jsGetProp (v : JsonValue) (k : String) : Option JsonValue :=
  match v with
  | .obj o => o.lookup k
  | _ => none


/-- Spread of a value into an object literal.  An object spreads to itself;
primitives spread to nothing.  (The sources only spread values typed as
signature records, so only the object case is exercised.) -/
def jsSpreadObject : JsonValue → JsonObject
  | .obj o => o
  | _ => .nil


/-- The x || \x7b\x7d pattern: an absent or falsy value becomes the empty
object, otherwise the value is spread. -/
def spreadOrEmpty : Option JsonValue → JsonObject
  | some v => if jsFalsyVal v then .nil else jsSpreadObject v
  | none => .nil


/-- Oracles for the Web Crypto primitives used by src/utils/crypto.ts.
Decoding and verification may throw (Except.error); signing of the
canonical form by an imported JWK is a total abstract function. -/
structure CryptoEnv where
  decodeB64 : String → Except Unit (List Nat)
  encodeB64 : List Nat → String
  ed25519Verify : List Nat → List Nat → String → Except Unit Bool
  ed25519Sign : String → String → List Nat


/-- signJson of src/utils/crypto.ts: strip signatures and unsigned, sign
the canonical JSON, and merge the new (server, key) entry into any existing
signatures map. -/
def signJson (env : CryptoEnv) (obj : JsonObject) (serverName keyId privateKeyJwk : String) :
    JsonObject :=
  let toSign := (obj.erase "signatures").erase "unsigned"
  let canonical := canonicalJson (.obj toSign)
  let signatureB64 := env.encodeB64 (env.ed25519Sign privateKeyJwk canonical)
  let existingSignatures := spreadOrEmpty (obj.lookup "signatures")
  let serverSigs := spreadOrEmpty (existingSignatures.lookup serverName)
  obj.setKey "signatures"
    (.obj (existingSignatures.setKey serverName
      (.obj (serverSigs.setKey keyId (.str signatureB64)))))


/-- The body of verifySignature of src/utils/crypto.ts, inside its try
block: extract signatures[server][key_id], return false when absent or
falsy, otherwise decode the key and signature and verify over the
canonical form without signatures and unsigned.  A non-string signature
value or a key of the wrong length makes the decode or import throw. -/
def verifySignatureE (env : CryptoEnv) (obj : JsonObject) (serverName keyId publicKeyB64 : String) :
    Except Unit Bool :=
  match ((obj.lookup "signatures").bind (fun s => jsGetProp s serverName)).bind
      (fun s => jsGetProp s keyId) with
  | none => .ok false
  | some sigVal =>
    if jsFalsyVal sigVal then .ok false
    else
      let toVerify := (obj.erase "signatures").erase "unsigned"
      match env.decodeB64 publicKeyB64 with
      | .error e => .error e
      | .ok publicKeyBytes =>
        match sigVal with
        | .str sigStr =>
          match env.decodeB64 sigStr with
          | .error e => .error e
          | .ok signatureBytes =>
            env.ed25519Verify publicKeyBytes signatureBytes (canonicalJson (.obj toVerify))
        | _ => .error ()


/-- verifySignature of src/utils/crypto.ts: the try block with every
exception caught and turned into false. -/
def verifySignature (env : CryptoEnv) (obj : JsonObject) (serverName keyId publicKeyB64 : String) :
    Bool :=
  match verifySignatureE env obj serverName keyId publicKeyB64 with
  | .ok b => b
  | .error _ => false


/-- A concrete crypto oracle for witnesses. -/
def sampleCryptoEnv : CryptoEnv where
  decodeB64 := fun _ => .error ()
  encodeB64 := fun _ => "SIG"
  ed25519Verify := fun _ _ _ => .error ()
  ed25519Sign := fun _ _ => []


/-- A concrete object with one unrelated field, an unsigned field and one
pre-existing signature by another server. -/
def sampleSignedObject : JsonObject :=
  .cons "a" (.num (.int 1))
    (.cons "unsigned" (.bool true)
      (.cons "signatures"
        (.obj (.cons "other.server" (.obj (.cons "k1" (.str "s1") .nil)) .nil)) .nil))


/-- Behavior record of src/services/room-versions.ts. -/
structure RoomVersionBehavior where
  version : String
  stateResolution : String
  eventIdFormat : String
  redactionAlgorithm : String
  knockingSupported : Bool
  restrictedJoinsSupported : Bool
  integerPowerLevels : Bool
  updatedRedactionRules : Bool
  authRuleVariant : String
  knockRestrictedSupported : Bool
  stable : Bool
deriving DecidableEq, Repr


/-- The ROOM_VERSIONS registry: getRoomVersion of room-versions.ts,
returning none for unsupported versions. -/
def getRoomVersion : String → Option RoomVersionBehavior
  | "1" =>
    some
      { version := "1", stateResolution := "v1", eventIdFormat := "v1",
        redactionAlgorithm := "v1", knockingSupported := false, restrictedJoinsSupported := false,
        integerPowerLevels := false, updatedRedactionRules := false, authRuleVariant := "v1",
        knockRestrictedSupported := false, stable := true }
  | "2" =>
    some
      { version := "2", stateResolution := "v2", eventIdFormat := "v1",
        redactionAlgorithm := "v1", knockingSupported := false, restrictedJoinsSupported := false,
        integerPowerLevels := false, updatedRedactionRules := false, authRuleVariant := "v1",
        knockRestrictedSupported := false, stable := true }
  | "3" =>
    some
      { version := "3", stateResolution := "v2", eventIdFormat := "v3",
        redactionAlgorithm := "v1", knockingSupported := false, restrictedJoinsSupported := false,
        integerPowerLevels := false, updatedRedactionRules := false, authRuleVariant := "v1",
        knockRestrictedSupported := false, stable := true }
  | "4" =>
    some
      { version := "4", stateResolution := "v2", eventIdFormat := "v4",
        redactionAlgorithm := "v1", knockingSupported := false, restrictedJoinsSupported := false,
        integerPowerLevels := false, updatedRedactionRules := false, authRuleVariant := "v1",
        knockRestrictedSupported := false, stable := true }
  | "5" =>
    some
      { version := "5", stateResolution := "v2", eventIdFormat := "v4",
        redactionAlgorithm := "v1", knockingSupported := false, restrictedJoinsSupported := false,
        integerPowerLevels := false, updatedRedactionRules := false, authRuleVariant := "v1",
        knockRestrictedSupported := false, stable := true }
  | "6" =>
    some
      { version := "6", stateResolution := "v2", eventIdFormat := "v4",
        redactionAlgorithm := "v1", knockingSupported := false, restrictedJoinsSupported := false,
        integerPowerLevels := false, updatedRedactionRules := false, authRuleVariant := "v1",
        knockRestrictedSupported := false, stable := true }
  | "7" =>
    some
      { version := "7", stateResolution := "v2", eventIdFormat := "v4",
        redactionAlgorithm := "v1", knockingSupported := true, restrictedJoinsSupported := false,
        integerPowerLevels := false, updatedRedactionRules := false, authRuleVariant := "v1",
        knockRestrictedSupported := false, stable := true }
  | "8" =>
    some
      { version := "8", stateResolution := "v2", eventIdFormat := "v4",
        redactionAlgorithm := "v1", knockingSupported := true, restrictedJoinsSupported := true,
        integerPowerLevels := false, updatedRedactionRules := false, authRuleVariant := "v8",
        knockRestrictedSupported := false, stable := true }
  | "9" =>
    some
      { version := "9", stateResolution := "v2", eventIdFormat := "v4",
        redactionAlgorithm := "v1", knockingSupported := true, restrictedJoinsSupported := true,
        integerPowerLevels := false, updatedRedactionRules := false, authRuleVariant := "v8",
        knockRestrictedSupported := false, stable := true }
  | "10" =>
    some
      { version := "10", stateResolution := "v2", eventIdFormat := "v4",
        redactionAlgorithm := "v1", knockingSupported := true, restrictedJoinsSupported := true,
        integerPowerLevels := true, updatedRedactionRules := false, authRuleVariant := "v10",
        knockRestrictedSupported := true, stable := true }
  | "11" =>
    some
      { version := "11", stateResolution := "v2", eventIdFormat := "v4",
        redactionAlgorithm := "v11", knockingSupported := true, restrictedJoinsSupported := true,
        integerPowerLevels := true, updatedRedactionRules := true, authRuleVariant := "v10",
        knockRestrictedSupported := true, stable := true }
  | "12" =>
    some
      { version := "12", stateResolution := "v2", eventIdFormat := "v4",
        redactionAlgorithm := "v11", knockingSupported := true, restrictedJoinsSupported := true,
        integerPowerLevels := true, updatedRedactionRules := true, authRuleVariant := "v10",
        knockRestrictedSupported := true, stable := true }
  | _ => none


/-- Event content: the union of the optional fields read by the
authorization engine (member, create, join-rules and power-levels
content); absent fields are none.  The notifications map is read only at
its room entry. -/
structure EventContent where
  membership : Option String := none
  join_authorised_via_users_server : Option String := none
  creator : Option String := none
  room_version : Option String := none
  join_rule : Option String := none
  users : Option (List (String × Int)) := none
  users_default : Option Int := none
  events : Option (List (String × Int)) := none
  events_default : Option Int := none
  state_default : Option Int := none
  ban : Option Int := none
  kick : Option Int := none
  redact : Option Int := none
  invite : Option Int := none
  notifications_room : Option Int := none
deriving DecidableEq, Repr


/-- A PDU as used by the authorization and state-resolution code. -/
structure PDU where
  event_id : String := ""
  room_id : String := ""
  sender : String := ""
  type : String := ""
  state_key : Option String := none
  content : EventContent := {}
  origin_server_ts : Int := 0
  depth : Int := 0
  prev_events : List String := []
  auth_events : List String := []
deriving DecidableEq, Repr


/-- Result of an authorization check. -/
structure AuthResult where
  allowed : Bool
  error : Option String := none
deriving DecidableEq, Repr


/-- Association-list lookup for JavaScript object property maps with
string keys and integer values (power level tables). -/
def plLookup : List (String × Int) → String → Option Int
  | [], _ => none
  | p :: r, k => if p.1 = k then some p.2 else plLookup r k


/-- Lookup in insertion-ordered map entries. -/
def assocLookup : List ((String × String) × α) → (String × String) → Option α
  | [], _ => none
  | e :: r, k => if e.1 = k then some e.2 else assocLookup r k


/-- Map.set: replace in place when the key exists, append otherwise. -/
def assocSet : List ((String × String) × α) → (String × String) → α → List ((String × String) × α)
  | [], k, v => [(k, v)]
  | e :: r, k, v => if e.1 = k then (k, v) :: r else e :: assocSet r k v


/-- A JavaScript Map keyed by (event type, state key), with insertion-order
entry semantics. -/
structure SMap (α : Type) where
  entries : List ((String × String) × α)
deriving DecidableEq, Repr


/-- Map.get. -/
def SMap.lookup (m : SMap α) (k : String × String) : Option α := assocLookup m.entries k


/-- Map.set. -/
def SMap.set (m : SMap α) (k : String × String) (v : α) : SMap α := ⟨assocSet m.entries k v⟩


/-- Map.values as a list in insertion order. -/
def SMap.values (m : SMap α) : List α := m.entries.map (fun e => e.2)


/-- Map.keys as a list in insertion order. -/
def SMap.keysList (m : SMap α) : List (String × String) := m.entries.map (fun e => e.1)


/-- Map.size. -/
def SMap.size (m : SMap α) : Nat := m.entries.length


/-- State map keyed by (event_type, state_key). -/
abbrev RoomStateMap := SMap PDU


/-- The read interface of a state map: the function its Map.get denotes. -/
abbrev RoomStateView := (String × String) → Option PDU


/-- The state-map key of event-auth.ts (type NUL state_key), as a pair. -/
def stateKey (eventType stateKeyStr : String) : String × String := (eventType, stateKeyStr)


/-- buildStateMap of event-auth.ts. -/
def buildStateMap (events : List PDU) : RoomStateMap :=
  events.foldl (fun map event =>
    match event.state_key with
    | some sk => map.set (stateKey event.type sk) event
    | none => map) ⟨[]⟩


/-- getState of event-auth.ts over the read interface. -/
def getState (state : RoomStateView) (type key : String) : Option PDU := state (stateKey type key)


/-- getPowerLevels of event-auth.ts with its default object. -/
def getPowerLevels (state : RoomStateView) : EventContent :=
  match getState state "m.room.power_levels" "" with
  | some plEvent => plEvent.content
  | none =>
    { users := some [], users_default := some 0, events := some [], events_default := some 0,
      state_default := some 50, ban := some 50, kick := some 50, redact := some 50,
      invite := some 0 }


/-- getUserPowerLevel of event-auth.ts: users[u] then users_default then 0. -/
def getUserPowerLevel (powerLevels : EventContent) (userId : String) : Int :=
  match powerLevels.users.bind (fun us => plLookup us userId) with
  | some v => v
  | none => powerLevels.users_default.getD 0


/-- getEventPowerLevel of event-auth.ts. -/
def getEventPowerLevel (powerLevels : EventContent) (eventType : String) (isState : Bool) : Int :=
  match powerLevels.events.bind (fun es => plLookup es eventType) with
  | some specific => specific
  | none => if isState then powerLevels.state_default.getD 50 else powerLevels.events_default.getD 0


/-- JavaScript falsiness of an optional string (undefined or empty). -/
def jsFalsyStr : Option String → Bool
  | none => true
  | some s => s = ""


/-- Rule 1 of checkEventAuth: m.room.create validation. -/
def checkCreateEvent (event : PDU) (_state : RoomStateView) : AuthResult :=
  if event.prev_events.length > 0 then
    { allowed := false, error := some "m.room.create must have no prev_events" }
  else if event.state_key ≠ some "" then
    { allowed := false, error := some "m.room.create must have empty state_key" }
  else if jsFalsyStr event.content.room_version && jsFalsyStr event.content.creator then
    { allowed := false, error := some "m.room.create must have creator or room_version" }
  else { allowed := true }


instance : Inhabited PDU := ⟨{}⟩


/-- Rule 3 of checkEventAuth: the m.room.member state machine.  The
undefined state_key of a malformed member event coerces to the string
undefined in the template key, as in the source. -/
def checkMemberEvent (event : PDU) (state : RoomStateView)
    (versionBehavior : RoomVersionBehavior) : AuthResult :=
  let content := event.content
  let targetUserId := event.state_key.getD "undefined"
  let membership := content.membership
  if jsFalsyStr membership then
    { allowed := false, error := some "Missing membership in content" }
  else
    let powerLevels := getPowerLevels state
    let senderPower := getUserPowerLevel powerLevels event.sender
    let targetPower := getUserPowerLevel powerLevels targetUserId
    let senderMembership :=
      (getState state "m.room.member" event.sender).bind (fun e => e.content.membership)
    let targetMembership :=
      (getState state "m.room.member" targetUserId).bind (fun e => e.content.membership)
    let joinRule : Option String :=
      match getState state "m.room.join_rules" "" with
      | some jrEvent => jrEvent.content.join_rule
      | none => some "invite"
    if membership = some "join" then
      if event.sender ≠ targetUserId then
        { allowed := false, error := some "Cannot join on behalf of another user" }
      else if senderMembership = some "join" then { allowed := true }
      else if senderMembership = some "invite" then { allowed := true }
      else if joinRule = some "public" then { allowed := true }
      else if versionBehavior.restrictedJoinsSupported = true ∧
          (joinRule = some "restricted" ∨ joinRule = some "knock_restricted") then
        match content.join_authorised_via_users_server with
        | some authUser =>
          if authUser = "" then { allowed := false, error := some "Not authorized to join" }
          else
            let authUserMembership :=
              (getState state "m.room.member" authUser).bind (fun e => e.content.membership)
            if authUserMembership = some "join" then
              if getUserPowerLevel powerLevels authUser ≥ powerLevels.invite.getD 0 then
                { allowed := true }
              else { allowed := false, error := some "Not authorized to join" }
            else { allowed := false, error := some "Not authorized to join" }
        | none => { allowed := false, error := some "Not authorized to join" }
      else { allowed := false, error := some "Not authorized to join" }
    else if membership = some "invite" then
      if senderMembership ≠ some "join" then
        { allowed := false, error := some "Sender must be joined to invite" }
      else if targetMembership = some "ban" then
        { allowed := false, error := some "Cannot invite banned user" }
      else if targetMembership = some "join" then
        { allowed := false, error := some "User is already joined" }
      else if senderPower < powerLevels.invite.getD 0 then
        { allowed := false, error := some "Insufficient power level to invite" }
      else { allowed := true }
    else if membership = some "leave" then
      if event.sender = targetUserId then
        if senderMembership = some "join" ∨ senderMembership = some "invite" then
          { allowed := true }
        else if versionBehavior.knockingSupported = true ∧ senderMembership = some "knock" then
          { allowed := true }
        else { allowed := false, error := some "Not a member of the room" }
      else if senderMembership ≠ some "join" then
        { allowed := false, error := some "Sender must be joined to kick" }
      else if targetMembership = some "ban" then
        if senderPower < powerLevels.ban.getD 50 then
          { allowed := false, error := some "Insufficient power level to unban" }
        else { allowed := true }
      else if senderPower < powerLevels.kick.getD 50 then
        { allowed := false, error := some "Insufficient power level to kick" }
      else if senderPower ≤ targetPower then
        { allowed := false, error := some "Cannot kick user with equal or higher power" }
      else { allowed := true }
    else if membership = some "ban" then
      if senderMembership ≠ some "join" then
        { allowed := false, error := some "Sender must be joined to ban" }
      else if senderPower < powerLevels.ban.getD 50 then
        { allowed := false, error := some "Insufficient power level to ban" }
      else if senderPower ≤ targetPower then
        { allowed := false, error := some "Cannot ban user with equal or higher power" }
      else { allowed := true }
    else if membership = some "knock" then
      if versionBehavior.knockingSupported = false then
        { allowed := false, error := some "Knocking not supported in this room version" }
      else if event.sender ≠ targetUserId then
        { allowed := false, error := some "Cannot knock on behalf of another user" }
      else if joinRule ≠ some "knock" ∧ joinRule ≠ some "knock_restricted" then
        { allowed := false, error := some "Room does not allow knocking" }
      else if senderMembership = some "ban" then
        { allowed := false, error := some "Banned users cannot knock" }
      else if senderMembership = some "join" then
        { allowed := false, error := some "Already joined" }
      else { allowed := true }
    else
      { allowed := false, error := some ("Unknown membership: " ++ membership.getD "") }


/-- Rule 5 of checkEventAuth: m.room.third_party_invite. -/
def checkThirdPartyInvite (event : PDU) (state : RoomStateView) : AuthResult :=
  let powerLevels := getPowerLevels state
  let senderPower := getUserPowerLevel powerLevels event.sender
  let senderMembership :=
    (getState state "m.room.member" event.sender).bind (fun e => e.content.membership)
  if senderMembership ≠ some "join" then
    { allowed := false, error := some "Sender must be joined" }
  else if senderPower < powerLevels.invite.getD 0 then
    { allowed := false, error := some "Insufficient power level for third party invite" }
  else { allowed := true }


/-- Number.isInteger: identically true under the integer numeric domain of
this embedding. -/
def numberIsInteger (_ : Int) : Bool := true


/-- The old value of a users entry in the current power levels
(users[u] then users_default then 0). -/
def plUsersOldLevel (currentPl : EventContent) (userId : String) : Int :=
  match currentPl.users.bind (fun us => plLookup us userId) with
  | some v => v
  | none => currentPl.users_default.getD 0


/-- The users loop of checkPowerLevelChange: first rejection, if any. -/
def checkUsersEntries (senderId : String) (senderPower : Int) (currentPl : EventContent) :
    List (String × Int) → Option AuthResult
  | [] => none
  | (userId, level) :: rest =>
    if level > senderPower then
      some { allowed := false,
             error := some ("Cannot set user " ++ userId ++
               " power level higher than own (" ++ toString senderPower ++ ")") }
    else if plUsersOldLevel currentPl userId ≠ level ∧ userId ≠ senderId then
      if senderPower ≤ plUsersOldLevel currentPl userId then
        some { allowed := false,
               error := some "Cannot change power of user with equal or higher power" }
      else checkUsersEntries senderId senderPower currentPl rest
    else checkUsersEntries senderId senderPower currentPl rest


/-- checkLevel of checkPowerLevelChange. -/
def checkLevel (senderPower : Int) : Option Int → Option AuthResult
  | some val =>
    if val > senderPower then
      some { allowed := false,
             error := some ("Cannot set power level higher than own (" ++
               toString senderPower ++ ")") }
    else none
  | none => none


/-- The first non-null check result, as in the for loop over checks. -/
def firstCheck : List (Option AuthResult) → Option AuthResult
  | [] => none
  | some r :: _ => some r
  | none :: rest => firstCheck rest


/-- The events loop of checkPowerLevelChange. -/
def checkEventsEntries (senderPower : Int) : List (String × Int) → Option AuthResult
  | [] => none
  | (_, level) :: rest =>
    match checkLevel senderPower (some level) with
    | some r => some r
    | none => checkEventsEntries senderPower rest


/-- checkPowerLevelChange of event-auth.ts: escalation prevention for
m.room.power_levels events. -/
def checkPowerLevelChange (event : PDU) (state : RoomStateView) (senderPower : Int)
    (versionBehavior : RoomVersionBehavior) : AuthResult :=
  let newPl := event.content
  let currentPl : EventContent :=
    match getState state "m.room.power_levels" "" with
    | some e => e.content
    | none => {}
  let allValues : List Int :=
    ([newPl.ban, newPl.events_default, newPl.invite, newPl.kick, newPl.redact,
      newPl.state_default, newPl.users_default].filterMap id) ++
    (match newPl.events with | some es => es.map (fun p => p.2) | none => []) ++
    (match newPl.users with | some us => us.map (fun p => p.2) | none => []) ++
    ([newPl.notifications_room].filterMap id)
  if versionBehavior.integerPowerLevels = true ∧
      allValues.any (fun v => numberIsInteger v = false) then
    { allowed := false, error := some "Power levels must be integers in this room version" }
  else
    match (match newPl.users with
           | some us => checkUsersEntries event.sender senderPower currentPl us
           | none => none) with
    | some r => r
    | none =>
      match firstCheck [checkLevel senderPower newPl.ban,
          checkLevel senderPower newPl.events_default,
          checkLevel senderPower newPl.invite,
          checkLevel senderPower newPl.kick,
          checkLevel senderPower newPl.redact,
          checkLevel senderPower newPl.state_default,
          checkLevel senderPower newPl.users_default] with
      | some r => r
      | none =>
        match (match newPl.events with
               | some es => checkEventsEntries senderPower es
               | none => none) with
        | some r => r
        | none => { allowed := true }


/-- Rule 6 of checkEventAuth: state event power level check. -/
def checkStateEventPower (event : PDU) (state : RoomStateView)
    (versionBehavior : RoomVersionBehavior) : AuthResult :=
  let powerLevels := getPowerLevels state
  let senderPower := getUserPowerLevel powerLevels event.sender
  let requiredPower := getEventPowerLevel powerLevels event.type true
  if senderPower < requiredPower then
    { allowed := false,
      error := some ("Insufficient power level for " ++ event.type ++ " (have " ++
        toString senderPower ++ ", need " ++ toString requiredPower ++ ")") }
  else if event.type = "m.room.power_levels" then
    checkPowerLevelChange event state senderPower versionBehavior
  else { allowed := true }


/-- Rule 7 of checkEventAuth: non-state event power level check. -/
def checkNonStateEventPower (event : PDU) (state : RoomStateView) : AuthResult :=
  let powerLevels := getPowerLevels state
  let senderPower := getUserPowerLevel powerLevels event.sender
  let requiredPower := getEventPowerLevel powerLevels event.type false
  if senderPower < requiredPower then
    { allowed := false,
      error := some ("Insufficient power level for " ++ event.type ++ " (have " ++
        toString senderPower ++ ", need " ++ toString requiredPower ++ ")") }
  else if event.type = "m.room.redaction" then
    let redactPower := powerLevels.redact.getD 50
    if senderPower < redactPower then
      { allowed := false,
        error := some ("Insufficient power level to redact (have " ++
          toString senderPower ++ ", need " ++ toString redactPower ++ ")") }
    else { allowed := true }
  else { allowed := true }


/-- checkEventAuth of event-auth.ts over the read interface of the built
state map; rules applied in source order. -/
def checkEventAuthView (event : PDU) (state : RoomStateView) (roomVersion : Option String) :
    AuthResult :=
  match getRoomVersion (roomVersion.getD "10") with
  | none =>
    { allowed := false,
      error := some ("Unsupported room version: " ++
        (match roomVersion with | some v => v | none => "undefined")) }
  | some versionBehavior =>
    if event.type = "m.room.create" then checkCreateEvent event state
    else
      match getState state "m.room.create" "" with
      | none => { allowed := false, error := some "No m.room.create event in room state" }
      | some _ =>
        if event.type = "m.room.member" then checkMemberEvent event state versionBehavior
        else
          let senderMembershipState :=
            (getState state "m.room.member" event.sender).bind (fun e => e.content.membership)
          if senderMembershipState ≠ some "join" then
            { allowed := false, error := some "Sender is not joined to the room" }
          else if event.type = "m.room.third_party_invite" then
            checkThirdPartyInvite event state
          else
            match event.state_key with
            | some _ => checkStateEventPower event state versionBehavior
            | none => checkNonStateEventPower event state


/-- checkEventAuth of event-auth.ts: build the state map from the array of
state events and check the rules against it. -/
def checkEventAuth (event : PDU) (roomState : List PDU) (roomVersion : Option String) :
    AuthResult :=
  checkEventAuthView event (fun k => (buildStateMap roomState).lookup k) roomVersion


/-- The membership a state array gives a user, read the way checkEventAuth
reads it. -/
def membershipOf (roomState : List PDU) (userId : String) : Option String :=
  ((buildStateMap roomState).lookup (stateKey "m.room.member" userId)).bind
    (fun e => e.content.membership)


/-- The power levels checkEventAuth derives from a state array. -/
def statePowerLevels (roomState : List PDU) : EventContent :=
  getPowerLevels (fun k => (buildStateMap roomState).lookup k)


/-- The current power-levels content as read by checkPowerLevelChange
(empty content when the state has no power-levels event). -/
def currentPowerLevelsContent (roomState : List PDU) : EventContent :=
  match (buildStateMap roomState).lookup (stateKey "m.room.power_levels" "") with
  | some e => e.content
  | none => {}


/-- getUserPowerLevel of src/services/power-levels.ts, with the database
state-event reads modelled as lookups in the current room state: with no
power-levels event the room creator (content.creator, else the create
sender) has power 100 and every other user 0. -/
def getUserPowerLevelDb (state : RoomStateView) (userId : String) : Int :=
  match getState state "m.room.power_levels" "" with
  | none =>
    match getState state "m.room.create" "" with
    | some createEvent =>
      let creator :=
        match createEvent.content.creator with
        | some c => if c = "" then createEvent.sender else c
        | none => createEvent.sender
      if creator = userId then 100 else 0
    | none => 0
  | some plEvent =>
    match plEvent.content.users.bind (fun us => plLookup us userId) with
    | some v => v
    | none => plEvent.content.users_default.getD 0


/-- The create event of the creator-bootstrap scenario (sender and creator
are both the user a). -/
def c1Create : PDU :=
  { event_id := "$c1create", sender := "@a:x", type := "m.room.create",
    state_key := some "", content := { creator := some "@a:x" } }


/-- Membership join of the creator. -/
def c1MemberA : PDU :=
  { event_id := "$c1ma", sender := "@a:x", type := "m.room.member",
    state_key := some "@a:x", content := { membership := some "join" } }


/-- Membership join of a second user b. -/
def c1MemberB : PDU :=
  { event_id := "$c1mb", sender := "@b:x", type := "m.room.member",
    state_key := some "@b:x", content := { membership := some "join" } }


/-- The bootstrap power-levels event sent by the creator. -/
def c1PlByCreator : PDU :=
  { event_id := "$c1pl", sender := "@a:x", type := "m.room.power_levels",
    state_key := some "", content := { users := some [("@a:x", 100)] } }


/-- The same power-levels content sent by user b. -/
def c1PlByOther : PDU :=
  { event_id := "$c1plb", sender := "@b:x", type := "m.room.power_levels",
    state_key := some "", content := { users := some [("@a:x", 100)] } }


/-- Create event for the C10 witness room. -/
def c10Create : PDU :=
  { event_id := "$c10c", sender := "@u:x", type := "m.room.create",
    state_key := some "", content := { creator := some "@u:x" } }


/-- Invite membership of the joining user for the C10 witness. -/
def c10Invited : PDU :=
  { event_id := "$c10i", sender := "@w:x", type := "m.room.member",
    state_key := some "@u:x", content := { membership := some "invite" } }


/-- The join event of the C10 witness. -/
def c10Join : PDU :=
  { event_id := "$c10j", sender := "@u:x", type := "m.room.member",
    state_key := some "@u:x", content := { membership := some "join" } }


/-- Create event of the kick/unban scenario room. -/
def c4Create : PDU :=
  { event_id := "$c4c", sender := "@p:x", type := "m.room.create",
    state_key := some "", content := { creator := some "@p:x" } }


/-- Power levels: sender s has 50, target t has 100 (ban level default 50). -/
def c4Pl : PDU :=
  { event_id := "$c4pl", sender := "@p:x", type := "m.room.power_levels",
    state_key := some "", content := { users := some [("@s:x", 50), ("@t:x", 100)] } }


/-- Sender s is joined. -/
def c4MemberS : PDU :=
  { event_id := "$c4ms", sender := "@s:x", type := "m.room.member",
    state_key := some "@s:x", content := { membership := some "join" } }


/-- Target t is currently banned. -/
def c4MemberT : PDU :=
  { event_id := "$c4mt", sender := "@p:x", type := "m.room.member",
    state_key := some "@t:x", content := { membership := some "ban" } }


/-- The unban: s (power 50) sends leave for the banned t (power 100). -/
def c4Unban : PDU :=
  { event_id := "$c4ub", sender := "@s:x", type := "m.room.member",
    state_key := some "@t:x", content := { membership := some "leave" } }


/-- The state of the kick/unban scenario. -/
def c4State : List PDU := [c4Create, c4Pl, c4MemberS, c4MemberT]


/-- Create event of the power-level escalation room. -/
def c3Create : PDU :=
  { event_id := "$c3c", sender := "@p:x", type := "m.room.create",
    state_key := some "", content := { creator := some "@p:x" } }


/-- Current power levels: sender s has 50; the ban level is 100. -/
def c3Pl : PDU :=
  { event_id := "$c3pl", sender := "@p:x", type := "m.room.power_levels",
    state_key := some "", content := { users := some [("@s:x", 50)], ban := some 100 } }


/-- Sender s is joined. -/
def c3MemberS : PDU :=
  { event_id := "$c3ms", sender := "@s:x", type := "m.room.member",
    state_key := some "@s:x", content := { membership := some "join" } }


/-- The state of the power-level escalation room. -/
def c3State : List PDU := [c3Create, c3Pl, c3MemberS]


/-- The event of sender s (power 50) lowering the ban level from 100 to 0. -/
def c3BanDown : PDU :=
  { event_id := "$c3bd", sender := "@s:x", type := "m.room.power_levels",
    state_key := some "", content := { ban := some 0 } }


/-- Current power levels for the users-guard witness: s has 50, v has 80. -/
def c3PlV : PDU :=
  { event_id := "$c3plv", sender := "@p:x", type := "m.room.power_levels",
    state_key := some "", content := { users := some [("@s:x", 50), ("@v:x", 80)] } }


/-- State of the users-guard witness room. -/
def c3StateV : List PDU := [c3Create, c3PlV, c3MemberS]


/-- The event of sender s (power 50) lowering user v (power 80) to 10. -/
def c3UsersDown : PDU :=
  { event_id := "$c3ud", sender := "@s:x", type := "m.room.power_levels",
    state_key := some "", content := { users := some [("@v:x", 10)] } }


/-- A cached remote signing key row of federation-keys.ts. -/
structure RemoteServerKey where
  server_name : String := ""
  key_id : String := ""
  public_key : String := ""
  valid_from : Int := 0
  valid_until : Option Int := none
  fetched_at : Int := 0
  verified : Bool := false
deriving DecidableEq, Repr


/-- Environment of the key store: the KV cache entry for the server, the
D1 rows for the server, the current time, and the outcome of
fetchKeysFromRemote (an error models any network failure, non-2xx status
or invalid response, all of which throw). -/
structure KeyEnv where
  kvCached : Option (List RemoteServerKey)
  dbRows : List RemoteServerKey
  now : Int
  remoteFetch : Except String (List RemoteServerKey)


/-- The non-expired D1 rows: valid_until IS NULL OR valid_until > now. -/
def dbNonExpired (env : KeyEnv) : List RemoteServerKey :=
  env.dbRows.filter (fun k =>
    match k.valid_until with
    | none => true
    | some vu => env.now < vu)


/-- fetchRemoteServerKeys of federation-keys.ts: KV cache, then recent D1
rows, then the origin; on a fetch failure fall back to stale D1 rows, and
throw when none exist.  Cache writes are irrelevant to the returned value
and are not modelled. -/
def fetchRemoteServerKeys (env : KeyEnv) (serverName : String) :
    Except String (List RemoteServerKey) :=
  match env.kvCached with
  | some cached => .ok cached
  | none =>
    let dbKeys := dbNonExpired env
    let recentKeys := dbKeys.filter (fun k => env.now - 60 * 60 * 1000 < k.fetched_at)
    if recentKeys.length > 0 then .ok recentKeys
    else
      match env.remoteFetch with
      | .ok keys => .ok keys
      | .error _ =>
        if dbKeys.length > 0 then .ok dbKeys
        else .error ("Cannot fetch signing keys from " ++ serverName)


/-- getRemoteServerKey of federation-keys.ts: the first fetched key with
the requested key ID, or null. -/
def getRemoteServerKey (env : KeyEnv) (serverName keyId : String) :
    Except String (Option RemoteServerKey) :=
  (fetchRemoteServerKeys env serverName).map
    (fun keys => keys.find? (fun k => k.key_id = keyId))


/-- verifyRemoteSignature of federation-keys.ts: a missing key yields
false; an exception of fetchRemoteServerKeys propagates to the caller
(there is no try/catch in this path); otherwise the Ed25519 check of
crypto.ts decides.  The expiry check only logs. -/
def verifyRemoteSignature (env : KeyEnv) (cenv : CryptoEnv) (obj : JsonObject)
    (serverName keyId : String) : Except String Bool :=
  match getRemoteServerKey env serverName keyId with
  | .error e => .error e
  | .ok none => .ok false
  | .ok (some key) => .ok (verifySignature cenv obj serverName keyId key.public_key)


/-- The environment of a total cache miss with an unreachable origin. -/
def emptyKeyEnv : KeyEnv :=
  { kvCached := none, dbRows := [], now := 0, remoteFetch := .error "HTTP 404 from remote" }


/-- Deduplication by event_id keeping the first occurrence, with the seen
set carried explicitly (the uniqueEvents loop of separateState). -/
def dedupById : List PDU → List String → List PDU
  | [], _ => []
  | e :: r, seen =>
    if e.event_id ∈ seen then dedupById r seen else e :: dedupById r (e.event_id :: seen)


/-- Deduplication of strings keeping first occurrences (a JS Set built by
insertion). -/
def dedupStringsAux : List String → List String → List String
  | [], _ => []
  | s :: r, seen => if s ∈ seen then dedupStringsAux r seen else s :: dedupStringsAux r (s :: seen)


/-- The Set of a string list, as its insertion-ordered distinct elements. -/
def dedupStrings (l : List String) : List String := dedupStringsAux l []


/-- Addition of a key to the insertion-ordered key set. -/
def addKeyOnce (acc : List (String × String)) (k : String × String) : List (String × String) :=
  if k ∈ acc then acc else acc ++ [k]


/-- All state keys over all state maps, in insertion order without
duplicates. -/
def collectAllKeys (maps : List RoomStateMap) : List (String × String) :=
  maps.foldl (fun acc m => m.keysList.foldl addKeyOnce acc) []


/-- The events the maps hold for a key, in map order. -/
def eventsForKey (maps : List RoomStateMap) (key : String × String) : List PDU :=
  maps.filterMap (fun m => m.lookup key)


/-- The unconflicted test of separateState: a single distinct event ID and
presence in every map. -/
def sepUnconflictedCond (maps : List RoomStateMap) (key : String × String) : Prop :=
  (dedupStrings ((eventsForKey maps key).map (fun e => e.event_id))).length = 1 ∧
  (eventsForKey maps key).length = maps.length


instance (maps : List RoomStateMap) (key : String × String) :
    Decidable (sepUnconflictedCond maps key) := by
  unfold sepUnconflictedCond
  infer_instance


/-- The body of the key loop of separateState. -/
def separateStep (maps : List RoomStateMap) (acc : RoomStateMap × SMap (List PDU))
    (key : String × String) : RoomStateMap × SMap (List PDU) :=
  let events := eventsForKey maps key
  if sepUnconflictedCond maps key then
    match events with
    | e :: _ => (acc.1.set key e, acc.2)
    | [] => acc
  else (acc.1, acc.2.set key (dedupById events []))


/-- separateState of state-resolution.ts: partition the slots of the input
state sets into the unconflicted map and the conflicted multimap. -/
def separateState (stateSets : List (List PDU)) : RoomStateMap × SMap (List PDU) :=
  let maps := stateSets.map buildStateMap
  (collectAllKeys maps).foldl (separateStep maps) (⟨[]⟩, ⟨[]⟩)


/-- The auth event types of state resolution. -/
def AUTH_EVENT_TYPES : List String :=
  ["m.room.create", "m.room.power_levels", "m.room.join_rules", "m.room.member",
   "m.room.third_party_invite"]


/-- isAuthEvent of state-resolution.ts. -/
def isAuthEvent (event : PDU) : Bool := AUTH_EVENT_TYPES.contains event.type


/-- The sort comparator of reverseTopologicalPowerOrder: sender power
descending, then origin_server_ts ascending, then event_id ascending. -/
def rtpoComparator (powerLevels : EventContent) (a b : PDU) : Int :=
  if getUserPowerLevel powerLevels a.sender ≠ getUserPowerLevel powerLevels b.sender then
    getUserPowerLevel powerLevels b.sender - getUserPowerLevel powerLevels a.sender
  else if a.origin_server_ts ≠ b.origin_server_ts then a.origin_server_ts - b.origin_server_ts
  else if a.event_id < b.event_id then -1 else if b.event_id < a.event_id then 1 else 0


/-- reverseTopologicalPowerOrder of state-resolution.ts: the power levels
used by the comparator come from the first m.room.power_levels event found
among the events being sorted (or a default), making the ordering depend
on the order of that list. -/
def reverseTopologicalPowerOrder (events : List PDU) : List PDU :=
  let powerLevels : EventContent :=
    match events.find? (fun e => e.type = "m.room.power_levels") with
    | some e => e.content
    | none => { users := some [], users_default := some 0 }
  isortBy (fun a b => rtpoComparator powerLevels a b ≤ 0) events


/-- The application loop of resolveStateV2: events in order, each checked
by checkEventAuth against the current partial state and kept iff allowed. -/
def applyOrdered (roomVersion : String) (resolved : RoomStateMap) (events : List PDU) :
    RoomStateMap :=
  events.foldl (fun st e =>
    match e.state_key with
    | none => st
    | some sk =>
      if (checkEventAuth e st.values (some roomVersion)).allowed then
        st.set (stateKey e.type sk) e
      else st) resolved


/-- resolveStateV2 of state-resolution.ts. -/
def resolveStateV2 (stateSets : List (List PDU)) (roomVersion : String) : List PDU :=
  if stateSets.length = 0 then []
  else if stateSets.length = 1 then stateSets.headD []
  else
    let sep := separateState stateSets
    if sep.2.size = 0 then sep.1.values
    else
      let joined := sep.2.values.flatten
      let sortedAuth := reverseTopologicalPowerOrder (joined.filter (fun e => isAuthEvent e))
      let afterAuth := applyOrdered roomVersion sep.1 sortedAuth
      let sortedOther := reverseTopologicalPowerOrder (joined.filter (fun e => !(isAuthEvent e)))
      (applyOrdered roomVersion afterAuth sortedOther).values


/-- One event of the state accumulation loop of resolveStateV1. -/
def v1Step (m : SMap (List PDU)) (event : PDU) : SMap (List PDU) :=
  match event.state_key with
  | none => m
  | some sk =>
    let key := stateKey event.type sk
    let existing := (m.lookup key).getD []
    if existing.any (fun e => e.event_id = event.event_id) then m.set key existing
    else m.set key (existing ++ [event])


/-- The v1 conflict comparator: depth descending, event_id ascending. -/
def v1Comparator (a b : PDU) : Int :=
  if a.depth ≠ b.depth then b.depth - a.depth
  else if a.event_id < b.event_id then -1 else if b.event_id < a.event_id then 1 else 0


/-- The per-slot winner of resolveStateV1. -/
def v1Pick (events : List PDU) : Option PDU :=
  if events.length = 1 then events.head?
  else (isortBy (fun a b => v1Comparator a b ≤ 0) events).head?


/-- resolveStateV1 of state-resolution-v1.ts. -/
def resolveStateV1 (stateSets : List (List PDU)) : List PDU :=
  let allState := stateSets.foldl (fun m oneSet => oneSet.foldl v1Step m) (⟨[]⟩ : SMap (List PDU))
  allState.values.filterMap v1Pick


/-- resolveState of state-resolution.ts: dispatch by room version. -/
def resolveState (roomVersion : String) (stateSets : List (List PDU)) : List PDU :=
  match getRoomVersion roomVersion with
  | none => resolveStateV1 stateSets
  | some version =>
    if version.stateResolution = "v1" then resolveStateV1 stateSets
    else resolveStateV2 stateSets roomVersion


/-- Create event of the permutation counterexample room. -/
def cxCreate : PDU :=
  { event_id := "$cx_c", sender := "@p:x", type := "m.room.create",
    state_key := some "", content := { creator := some "@p:x" } }


/-- Membership join of the room creator p. -/
def cxMemberP : PDU :=
  { event_id := "$cx_mp", sender := "@p:x", type := "m.room.member",
    state_key := some "@p:x", content := { membership := some "join" } }


/-- Membership join of user a1. -/
def cxMemberA1 : PDU :=
  { event_id := "$cx_m1", sender := "@a1:x", type := "m.room.member",
    state_key := some "@a1:x", content := { membership := some "join" } }


/-- Membership join of user a2. -/
def cxMemberA2 : PDU :=
  { event_id := "$cx_m2", sender := "@a2:x", type := "m.room.member",
    state_key := some "@a2:x", content := { membership := some "join" } }


/-- Conflicted power-levels branch 1: a1 has 10, a2 has 5. -/
def cxP1 : PDU :=
  { event_id := "$cx_p1", sender := "@p:x", type := "m.room.power_levels",
    state_key := some "", origin_server_ts := 1,
    content := { users := some [("@a1:x", 10), ("@a2:x", 5)] } }


/-- Conflicted power-levels branch 2: a1 has 5, a2 has 10. -/
def cxP2 : PDU :=
  { event_id := "$cx_p2", sender := "@p:x", type := "m.room.power_levels",
    state_key := some "", origin_server_ts := 2,
    content := { users := some [("@a1:x", 5), ("@a2:x", 10)] } }


/-- Conflicted member slot for t, branch 1: a1 invites t. -/
def cxM1 : PDU :=
  { event_id := "$cx_i1", sender := "@a1:x", type := "m.room.member",
    state_key := some "@t:x", origin_server_ts := 5,
    content := { membership := some "invite" } }


/-- Conflicted member slot for t, branch 2: a2 invites t. -/
def cxM2 : PDU :=
  { event_id := "$cx_i2", sender := "@a2:x", type := "m.room.member",
    state_key := some "@t:x", origin_server_ts := 6,
    content := { membership := some "invite" } }


/-- State set of branch 1. -/
def cxS1 : List PDU := [cxCreate, cxMemberP, cxMemberA1, cxMemberA2, cxM1, cxP1]


/-- State set of branch 2. -/
def cxS2 : List PDU := [cxCreate, cxMemberP, cxMemberA1, cxMemberA2, cxM2, cxP2]


/-- A plain state event occupying the slot (m.room.name, ""). -/
def c2Name : PDU :=
  { event_id := "$c2n", sender := "@p:x", type := "m.room.name",
    state_key := some "", content := {} }


def NodupKeys (l : List ((String × String) × α)) : Prop := (l.map Prod.fst).Nodup


/-- The state-map slot of an event: its (type, state_key) when it is a
state event. -/
def slotOf (e : PDU) : Option (String × String) := e.state_key.map (fun sk => (e.type, sk))


/-- Every entry of the map occupies the slot of its own event. -/
def SMapWF (m : RoomStateMap) : Prop := ∀ p ∈ m.entries, slotOf p.2 = some p.1


mutual
/-- Canonical JSON encodes a value exactly as its sanitization: NaN and the
infinities are rendered as null wherever they occur. -/
theorem canonicalJson_sanitize : ∀ v, canonicalJson (sanitizeNonFinite v) = canonicalJson v
  | .null => rfl
  | .bool _ => rfl
  | .num n => by cases n <;> rfl
  | .str _ => rfl
  | .arr a => by
      simp only [sanitizeNonFinite, canonicalJson, canonicalJson_sanitizeArray a]
  | .obj o => by
      simp only [sanitizeNonFinite, canonicalJson, canonicalJson_sanitizePairs o]
/-- Array version of canonicalJson_sanitize. -/
theorem canonicalJson_sanitizeArray :
    ∀ a, canonicalJsonArray (sanitizeNonFiniteArray a) = canonicalJsonArray a
  | .nil => rfl
  | .cons v rest => by
      simp only [sanitizeNonFiniteArray, canonicalJsonArray,
        canonicalJson_sanitize v, canonicalJson_sanitizeArray rest]
/-- Object version of canonicalJson_sanitize. -/
theorem canonicalJson_sanitizePairs :
    ∀ o, canonicalJsonPairs (sanitizeNonFiniteObject o) = canonicalJsonPairs o
  | .nil => rfl
  | .cons k v rest => by
      simp only [sanitizeNonFiniteObject, canonicalJsonPairs,
        canonicalJson_sanitize v, canonicalJson_sanitizePairs rest]
end


/-- Claim C7 counterexample: canonicalJson does not reject NaN with an
InvalidJson error; it is total and encodes NaN (and the infinities) as the
byte string "null", identically to the null value. -/
theorem canonicalJson_nan_is_null :
    canonicalJson (.num .nan) = "null" ∧
    canonicalJson (.num .inf) = "null" ∧
    canonicalJson (.num .ninf) = "null" ∧
    canonicalJson (.arr (.cons (.num .nan) .nil)) = canonicalJson (.arr (.cons .null .nil)) :=
  ⟨rfl, rfl, rfl, rfl⟩


/-- Claim C7 (amended): for every input value, canonicalJson produces an
encoding rather than an error; values containing NaN or infinities encode
exactly as if those numbers were the null value. -/
theorem canonicalJson_total_nonfinite_as_null (v : JsonValue) :
    canonicalJson v = canonicalJson (sanitizeNonFinite v) :=
  (canonicalJson_sanitize v).symm


theorem JsonObject.lookup_setKey_self :
    ∀ (o : JsonObject) (k : String) (v : JsonValue), (o.setKey k v).lookup k = some v
  | .nil, k, v => by simp [JsonObject.setKey, JsonObject.lookup]
  | .cons k2 w rest, k, v => by
    by_cases h : k2 = k
    · simp [JsonObject.setKey, JsonObject.lookup, h]
    · simp [JsonObject.setKey, JsonObject.lookup, h, lookup_setKey_self rest k v]


theorem JsonObject.lookup_setKey_ne :
    ∀ (o : JsonObject) (k k2 : String) (v : JsonValue), k2 ≠ k →
      (o.setKey k v).lookup k2 = o.lookup k2
  | .nil, k, k2, v, h => by
    simp [JsonObject.setKey, JsonObject.lookup, Ne.symm h]
  | .cons k3 w rest, k, k2, v, h => by
    by_cases h3 : k3 = k
    · subst h3
      simp [JsonObject.setKey, JsonObject.lookup, Ne.symm h]
    · simp only [JsonObject.setKey, if_neg h3, JsonObject.lookup]
      by_cases h4 : k3 = k2
      · simp [h4]
      · simp [h4, lookup_setKey_ne rest k k2 v h]


/-- Claim C9: signJson returns the object with only the signatures field
changed; the new (server, key) entry is merged into the existing signatures
map, every pre-existing entry for other servers and other key IDs is
preserved, and every other top-level field (including unsigned) is
unmodified.  The hypotheses say that the signatures field, when present, is
an object, and likewise its entry for the signing server. -/
theorem signJson_frame (env : CryptoEnv) (obj m ms : JsonObject) (sv kid sk : String)
    (hm : obj.lookup "signatures" = some (.obj m) ∨
      (obj.lookup "signatures" = none ∧ m = .nil))
    (hs : m.lookup sv = some (.obj ms) ∨ (m.lookup sv = none ∧ ms = .nil)) :
    ∃ sig : String,
      (∀ k, k ≠ "signatures" → (signJson env obj sv kid sk).lookup k = obj.lookup k) ∧
      ∃ msigs : JsonObject,
        (signJson env obj sv kid sk).lookup "signatures" = some (.obj msigs) ∧
        (∀ s, s ≠ sv → msigs.lookup s = m.lookup s) ∧
        ∃ entry : JsonObject,
          msigs.lookup sv = some (.obj entry) ∧
          (∀ k2, k2 ≠ kid → entry.lookup k2 = ms.lookup k2) ∧
          entry.lookup kid = some (.str sig) := by
  have hex : spreadOrEmpty (obj.lookup "signatures") = m := by
    rcases hm with h | ⟨h, rfl⟩ <;> simp [h, spreadOrEmpty, jsFalsyVal, jsSpreadObject]
  have hss : spreadOrEmpty (m.lookup sv) = ms := by
    rcases hs with h | ⟨h, rfl⟩ <;> simp [h, spreadOrEmpty, jsFalsyVal, jsSpreadObject]
  simp only [signJson, hex, hss]
  exact ⟨_, fun k hk => JsonObject.lookup_setKey_ne _ _ _ _ hk,
    _, JsonObject.lookup_setKey_self _ _ _,
    fun s hsne => JsonObject.lookup_setKey_ne _ _ _ _ hsne,
    _, JsonObject.lookup_setKey_self _ _ _,
    fun k2 hk2 => JsonObject.lookup_setKey_ne _ _ _ _ hk2,
    JsonObject.lookup_setKey_self _ _ _⟩


/-- Claim C9 witness: the frame theorem applied to the sample object shows
the unrelated field a and the other signature of other.server survive. -/
theorem signJson_frame_witness :
    (signJson sampleCryptoEnv sampleSignedObject "my.server" "ed25519:1" "sk").lookup "a" =
      some (.num (.int 1)) := by
  obtain ⟨sig, hframe, msigs, hsig, hother, entry, hentry, hkeep, hnew⟩ :=
    signJson_frame sampleCryptoEnv sampleSignedObject
      (.cons "other.server" (.obj (.cons "k1" (.str "s1") .nil)) .nil) .nil
      "my.server" "ed25519:1" "sk" (Or.inl rfl) (Or.inr ⟨rfl, rfl⟩)
  rw [hframe "a" (by decide)]
  rfl


/-- Claim C8: verifySignature always returns a boolean and never raises: a
missing signatures[server][key_id] entry, an undecodable public key or
signature, or any other internal failure of the try block yields false. -/
theorem verifySignature_never_raises (env : CryptoEnv) (obj : JsonObject) (sv kid pk : String) :
    (verifySignature env obj sv kid pk = true ∨ verifySignature env obj sv kid pk = false) ∧
    ((((obj.lookup "signatures").bind (fun s => jsGetProp s sv)).bind
        (fun s => jsGetProp s kid) = none) →
      verifySignature env obj sv kid pk = false) ∧
    (env.decodeB64 pk = .error () → verifySignature env obj sv kid pk = false) ∧
    (∀ sigStr, (((obj.lookup "signatures").bind (fun s => jsGetProp s sv)).bind
        (fun s => jsGetProp s kid) = some (.str sigStr)) →
      env.decodeB64 sigStr = .error () → verifySignature env obj sv kid pk = false) ∧
    (∀ e, verifySignatureE env obj sv kid pk = .error e →
      verifySignature env obj sv kid pk = false) := by
  refine ⟨?_, ?_, ?_, ?_, ?_⟩
  · cases h : verifySignature env obj sv kid pk
    · exact Or.inr rfl
    · exact Or.inl rfl
  · intro h
    simp [verifySignature, verifySignatureE, h]
  · intro h
    cases hl : (((obj.lookup "signatures").bind (fun s => jsGetProp s sv)).bind
        (fun s => jsGetProp s kid)) with
    | none => simp [verifySignature, verifySignatureE, hl]
    | some v =>
      by_cases hf : jsFalsyVal v
      · simp [verifySignature, verifySignatureE, hl, hf]
      · simp [verifySignature, verifySignatureE, hl, hf, h]
  · intro sigStr hl hdec
    cases hpk : env.decodeB64 pk with
    | error e =>
      by_cases hf : jsFalsyVal (JsonValue.str sigStr)
      · simp [verifySignature, verifySignatureE, hl, hf]
      · simp [verifySignature, verifySignatureE, hl, hf, hpk]
    | ok pkBytes =>
      by_cases hf : jsFalsyVal (JsonValue.str sigStr)
      · simp [verifySignature, verifySignatureE, hl, hf]
      · simp [verifySignature, verifySignatureE, hl, hf, hpk, hdec]
  · intro e h
    simp [verifySignature, h]


/-- Claim C8 witness: on the sample object, looking up a key with no
signature entry at all gives false, by direct application of the theorem. -/
theorem verifySignature_never_raises_witness :
    verifySignature sampleCryptoEnv sampleSignedObject "missing.server" "ed25519:1" "pk" = false :=
  (verifySignature_never_raises sampleCryptoEnv sampleSignedObject
    "missing.server" "ed25519:1" "pk").2.1 rfl


/-- Claim C1 (code bug): with only the create event (and memberships) in
the auth state and no power-levels event, checkEventAuth of event-auth.ts
gives the create sender power 0, not 100: its getPowerLevels default has an
empty users map and no creator bootstrap, so the bootstrap by the creator
power-levels event is rejected with have 0 need 50, exactly like any other
user.  The sibling getUserPowerLevel of power-levels.ts does implement
the bootstrap and gives the creator 100 on the same state. -/
theorem checkEventAuth_creator_bootstrap_rejected :
    checkEventAuth c1PlByCreator [c1Create, c1MemberA] (some "10") =
      { allowed := false,
        error := some "Insufficient power level for m.room.power_levels (have 0, need 50)" } ∧
    checkEventAuth c1PlByOther [c1Create, c1MemberA, c1MemberB] (some "10") =
      { allowed := false,
        error := some "Insufficient power level for m.room.power_levels (have 0, need 50)" } ∧
    getUserPowerLevelDb (fun k => (buildStateMap [c1Create, c1MemberA]).lookup k) "@a:x" = 100 ∧
    getUserPowerLevel (statePowerLevels [c1Create, c1MemberA]) "@a:x" = 0 :=
  ⟨rfl, rfl, rfl, rfl⟩


/-- Claim C10: for a member event with membership join checked against an
auth state with no m.room.join_rules event, the join rule defaults to
invite, so an allowed join implies the sender is currently joined or
currently invited (the public and restricted paths cannot fire). -/
theorem checkEventAuth_join_no_join_rules (event : PDU) (roomState : List PDU)
    (roomVersion : Option String)
    (hType : event.type = "m.room.member")
    (hMem : event.content.membership = some "join")
    (hNoJr : (buildStateMap roomState).lookup (stateKey "m.room.join_rules" "") = none)
    (hAllowed : (checkEventAuth event roomState roomVersion).allowed = true) :
    membershipOf roomState event.sender = some "join" ∨
    membershipOf roomState event.sender = some "invite" := by
  by_cases h1 : membershipOf roomState event.sender = some "join"
  · exact Or.inl h1
  by_cases h2 : membershipOf roomState event.sender = some "invite"
  · exact Or.inr h2
  exfalso
  unfold checkEventAuth checkEventAuthView at hAllowed
  unfold membershipOf at h1 h2
  simp only [stateKey] at h1 h2
  cases hv : getRoomVersion (roomVersion.getD "10") with
  | none => rw [hv] at hAllowed; simp at hAllowed
  | some vb =>
    rw [hv] at hAllowed
    simp only [hType, getState, stateKey] at hAllowed
    norm_num at hAllowed
    cases hc : (buildStateMap roomState).lookup ("m.room.create", "") with
    | none => rw [hc] at hAllowed; simp at hAllowed
    | some c =>
      rw [hc] at hAllowed
      unfold checkMemberEvent at hAllowed
      simp only [hMem, jsFalsyStr, getState, stateKey, hNoJr] at hAllowed
      norm_num at hAllowed
      simp only [stateKey] at hNoJr
      rw [hNoJr] at hAllowed
      by_cases hs : event.sender = event.state_key.getD "undefined"
      · rw [if_pos hs] at hAllowed
        simp [h1, h2] at hAllowed
      · rw [if_neg hs] at hAllowed
        simp at hAllowed


/-- Claim C10 witness: an invited user joining a room with no join-rules
event is allowed, and the theorem applied there yields the invited case. -/
theorem checkEventAuth_join_no_join_rules_witness :
    membershipOf [c10Create, c10Invited] "@u:x" = some "join" ∨
    membershipOf [c10Create, c10Invited] "@u:x" = some "invite" :=
  checkEventAuth_join_no_join_rules c10Join [c10Create, c10Invited] (some "10") rfl rfl rfl rfl


/-- Claim C4 counterexample: the unban of a banned target with power 100 by
a joined sender with power 50 (equal to the ban level, not strictly above
the target) is allowed by checkEventAuth, while the claim requires the
power of the sender to be strictly greater than that of the target. -/
theorem checkEventAuth_unban_no_strict_check :
    checkEventAuth c4Unban c4State (some "10") = { allowed := true, error := none } ∧
    getUserPowerLevel (statePowerLevels c4State) "@s:x" = 50 ∧
    getUserPowerLevel (statePowerLevels c4State) "@t:x" = 100 ∧
    membershipOf c4State "@t:x" = some "ban" :=
  ⟨rfl, rfl, rfl, rfl⟩


/-- Claim C4 (amended): for a member leave event whose sender differs from
the target, in a state containing a create event, checkEventAuth allows the
event iff the sender is joined and: when the target is currently banned,
the power of the sender reaches the ban level (no kick level and no strict
comparison with the power of the target are applied); otherwise that
power reaches the kick level and strictly exceeds the power of the target. -/
theorem checkEventAuth_kick_unban_characterization (event : PDU) (roomState : List PDU)
    (rv : Option String) (vb : RoomVersionBehavior) (t : String)
    (hv : getRoomVersion (rv.getD "10") = some vb)
    (hType : event.type = "m.room.member")
    (hMem : event.content.membership = some "leave")
    (hSk : event.state_key = some t)
    (hNe : event.sender ≠ t)
    (hCreate : ((buildStateMap roomState).lookup (stateKey "m.room.create" "")).isSome = true) :
    (checkEventAuth event roomState rv).allowed = true ↔
      (membershipOf roomState event.sender = some "join" ∧
        (if membershipOf roomState t = some "ban" then
          (statePowerLevels roomState).ban.getD 50 ≤
            getUserPowerLevel (statePowerLevels roomState) event.sender
         else
          (statePowerLevels roomState).kick.getD 50 ≤
            getUserPowerLevel (statePowerLevels roomState) event.sender ∧
          getUserPowerLevel (statePowerLevels roomState) t <
            getUserPowerLevel (statePowerLevels roomState) event.sender)) := by
  unfold checkEventAuth checkEventAuthView
  rw [hv]
  unfold membershipOf statePowerLevels
  simp only [stateKey] at hCreate
  rw [Option.isSome_iff_exists] at hCreate
  obtain ⟨c, hc⟩ := hCreate
  simp only [hType, getState, stateKey]
  rw [hc]
  simp only [String.reduceEq, reduceIte]
  unfold checkMemberEvent
  simp only [hMem, hSk, Option.getD_some]
  simp only [jsFalsyStr, getState, stateKey, String.reduceEq, Option.some.injEq,
    decide_eq_true_eq, reduceIte, if_true, if_false, ite_false, ite_true]
  rw [if_neg hNe]
  set pl := getPowerLevels (fun k => SMap.lookup (buildStateMap roomState) k) with hpl
  set sm := ((SMap.lookup (buildStateMap roomState) ("m.room.member", event.sender)).bind
    (fun e => e.content.membership)) with hsmdef
  set tb := ((SMap.lookup (buildStateMap roomState) ("m.room.member", t)).bind
    (fun e => e.content.membership)) with htbdef
  set sp := getUserPowerLevel pl event.sender with hspdef
  set tp := getUserPowerLevel pl t with htpdef
  by_cases hsm : sm = some "join"
  · rw [if_neg (not_not_intro hsm)]
    simp only [hsm, true_and]
    by_cases htb : tb = some "ban"
    · rw [if_pos htb, if_pos htb]
      by_cases hlt : sp < pl.ban.getD 50
      · rw [if_pos hlt]
        simp only [AuthResult.allowed]
        constructor
        · intro h0
          exact absurd h0 (by simp)
        · intro h0
          omega
      · rw [if_neg hlt]
        simp only [AuthResult.allowed]
        constructor
        · intro h0
          omega
        · intro h0
          trivial
    · rw [if_neg htb, if_neg htb]
      by_cases h1 : sp < pl.kick.getD 50
      · rw [if_pos h1]
        simp only [AuthResult.allowed]
        constructor
        · intro h0
          exact absurd h0 (by simp)
        · intro h0
          omega
      · rw [if_neg h1]
        by_cases h2 : sp ≤ tp
        · rw [if_pos h2]
          simp only [AuthResult.allowed]
          constructor
          · intro h0
            exact absurd h0 (by simp)
          · intro h0
            omega
        · rw [if_neg h2]
          simp only [AuthResult.allowed]
          constructor
          · intro h0
            exact ⟨by omega, by omega⟩
          · intro h0
            trivial
  · rw [if_pos hsm]
    simp [hsm]


/-- Claim C4 witness: the characterization applied to the unban scenario,
with the right-hand side discharged by evaluation, shows the unban allowed. -/
theorem checkEventAuth_kick_unban_characterization_witness :
    (checkEventAuth c4Unban c4State (some "10")).allowed = true :=
  (checkEventAuth_kick_unban_characterization c4Unban c4State (some "10")
    { version := "10", stateResolution := "v2", eventIdFormat := "v4",
      redactionAlgorithm := "v1", knockingSupported := true, restrictedJoinsSupported := true,
      integerPowerLevels := true, updatedRedactionRules := false, authRuleVariant := "v10",
      knockRestrictedSupported := true, stable := true }
    "@t:x" rfl rfl rfl rfl (by decide) rfl).mpr (by decide)


/-- Every result the users loop of checkPowerLevelChange returns is a
rejection. -/
theorem checkUsersEntries_some_rejects (sid : String) (sp : Int) (cpl : EventContent) :
    ∀ entries r, checkUsersEntries sid sp cpl entries = some r → r.allowed = false
  | [], r, h => by simp [checkUsersEntries] at h
  | (u, lv) :: rest, r, h => by
    unfold checkUsersEntries at h
    by_cases h1 : lv > sp
    · rw [if_pos h1] at h
      cases h
      rfl
    · rw [if_neg h1] at h
      by_cases h2 : plUsersOldLevel cpl u ≠ lv ∧ u ≠ sid
      · rw [if_pos h2] at h
        by_cases h3 : sp ≤ plUsersOldLevel cpl u
        · rw [if_pos h3] at h
          cases h
          rfl
        · rw [if_neg h3] at h
          exact checkUsersEntries_some_rejects sid sp cpl rest r h
      · rw [if_neg h2] at h
        exact checkUsersEntries_some_rejects sid sp cpl rest r h


/-- An entry that lowers the level of another user whose current level
strictly exceeds the power of the sender forces the users loop to return a
rejection. -/
theorem checkUsersEntries_bad_rejects (sid : String) (sp : Int) (cpl : EventContent) :
    ∀ entries (u : String) (lv : Int), (u, lv) ∈ entries → u ≠ sid →
      plUsersOldLevel cpl u ≠ lv → sp < plUsersOldLevel cpl u →
      ∃ r, checkUsersEntries sid sp cpl entries = some r
  | [], u, lv, hmem, _, _, _ => by simp at hmem
  | (u0, lv0) :: rest, u, lv, hmem, hne, hch, hhi => by
    unfold checkUsersEntries
    by_cases h1 : lv0 > sp
    · rw [if_pos h1]
      exact ⟨_, rfl⟩
    · rw [if_neg h1]
      by_cases h2 : plUsersOldLevel cpl u0 ≠ lv0 ∧ u0 ≠ sid
      · rw [if_pos h2]
        by_cases h3 : sp ≤ plUsersOldLevel cpl u0
        · rw [if_pos h3]
          exact ⟨_, rfl⟩
        · rw [if_neg h3]
          rcases List.mem_cons.mp hmem with heq | hmem2
          · exfalso
            injection heq with e1 e2
            subst e1
            exact h3 (le_of_lt hhi)
          · exact checkUsersEntries_bad_rejects sid sp cpl rest u lv hmem2 hne hch hhi
      · rw [if_neg h2]
        rcases List.mem_cons.mp hmem with heq | hmem2
        · exfalso
          injection heq with e1 e2
          subst e1
          subst e2
          exact h2 ⟨hch, hne⟩
        · exact checkUsersEntries_bad_rejects sid sp cpl rest u lv hmem2 hne hch hhi


/-- Claim C3 (amended): checkEventAuth rejects an m.room.power_levels event
whenever its users map changes the entry of a user other than the sender
whose current value strictly exceeds the power of the sender.  (The analogous
old-value protection of the claim is not applied by checkPowerLevelChange
to the level scalars, the events map or notifications; see the
counterexample.) -/
theorem checkEventAuth_power_levels_users_guard (event : PDU) (roomState : List PDU)
    (rv : Option String) (sk : String)
    (us : List (String × Int)) (userId : String) (level : Int)
    (hType : event.type = "m.room.power_levels")
    (hSk : event.state_key = some sk)
    (hUsers : event.content.users = some us)
    (hIn : (userId, level) ∈ us)
    (hOther : userId ≠ event.sender)
    (hChanged : plUsersOldLevel (currentPowerLevelsContent roomState) userId ≠ level)
    (hHigher : getUserPowerLevel (statePowerLevels roomState) event.sender <
      plUsersOldLevel (currentPowerLevelsContent roomState) userId) :
    (checkEventAuth event roomState rv).allowed = false := by
  unfold checkEventAuth checkEventAuthView
  unfold statePowerLevels at hHigher
  unfold currentPowerLevelsContent at hChanged hHigher
  simp only [stateKey] at hChanged hHigher
  cases hv : getRoomVersion (rv.getD "10") with
  | none => rfl
  | some vb =>
    simp only [hType, getState, stateKey, String.reduceEq, reduceIte]
    cases hc : SMap.lookup (buildStateMap roomState) ("m.room.create", "") with
    | none => rfl
    | some c =>
      by_cases hsm : ((SMap.lookup (buildStateMap roomState) ("m.room.member", event.sender)).bind
          (fun e => e.content.membership)) = some "join"
      · rw [if_neg (not_not_intro hsm)]
        simp only [hSk]
        unfold checkStateEventPower
        simp only [hType, String.reduceEq, reduceIte]
        by_cases hreq : getUserPowerLevel
            (getPowerLevels (fun k => SMap.lookup (buildStateMap roomState) k)) event.sender <
            getEventPowerLevel
              (getPowerLevels (fun k => SMap.lookup (buildStateMap roomState) k))
              "m.room.power_levels" true
        · rw [if_pos hreq]
        · rw [if_neg hreq]
          unfold checkPowerLevelChange
          simp only [getState, stateKey, hUsers]
          cases hplev : SMap.lookup (buildStateMap roomState) ("m.room.power_levels", "") with
          | none =>
            rw [hplev] at hChanged hHigher
            split_ifs with hint
            · rfl
            · obtain ⟨r, hr⟩ := checkUsersEntries_bad_rejects event.sender
                (getUserPowerLevel (getPowerLevels
                  (fun k => SMap.lookup (buildStateMap roomState) k)) event.sender)
                {} us userId level hIn hOther hChanged hHigher
              rw [hr]
              exact checkUsersEntries_some_rejects _ _ _ us r hr
          | some plev =>
            rw [hplev] at hChanged hHigher
            split_ifs with hint
            · rfl
            · obtain ⟨r, hr⟩ := checkUsersEntries_bad_rejects event.sender
                (getUserPowerLevel (getPowerLevels
                  (fun k => SMap.lookup (buildStateMap roomState) k)) event.sender)
                plev.content us userId level hIn hOther hChanged hHigher
              rw [hr]
              exact checkUsersEntries_some_rejects _ _ _ us r hr
      · rw [if_pos hsm]


/-- Claim C3 counterexample: the current ban level 100 strictly exceeds the
power 50 of the sender and the new content changes it to 0, yet checkEventAuth
allows the event: checkPowerLevelChange only compares new scalar values
against the power of the sender and never the current ones. -/
theorem checkEventAuth_ban_scalar_lowering_allowed :
    checkEventAuth c3BanDown c3State (some "10") = { allowed := true, error := none } ∧
    (currentPowerLevelsContent c3State).ban = some 100 ∧
    getUserPowerLevel (statePowerLevels c3State) "@s:x" = 50 :=
  ⟨rfl, rfl, rfl⟩


/-- Claim C3 witness: the users-guard theorem applied to the concrete
lowering of a stronger user rejects the event. -/
theorem checkEventAuth_power_levels_users_guard_witness :
    (checkEventAuth c3UsersDown c3StateV (some "10")).allowed = false :=
  checkEventAuth_power_levels_users_guard c3UsersDown c3StateV (some "10") ""
    [("@v:x", 10)] "@v:x" 10 rfl rfl rfl (by decide) (by decide) (by decide) (by decide)


/-- Claim C6 counterexample: with no cached key anywhere and the origin
unreachable, verifyRemoteSignature throws (the error of
fetchRemoteServerKeys propagates); it does not return false. -/
theorem verifyRemoteSignature_throws_on_total_miss :
    verifyRemoteSignature emptyKeyEnv sampleCryptoEnv .nil "remote.example" "ed25519:a" =
      .error "Cannot fetch signing keys from remote.example" :=
  rfl


/-- Claim C6 (amended): on a KV miss with no non-expired database rows and
a failing origin fetch, verifyRemoteSignature propagates the error thrown
by fetchRemoteServerKeys instead of returning false; it returns .ok false
(without throwing) exactly when keys were obtained but none carries the
requested key ID. -/
theorem verifyRemoteSignature_miss_behavior (env : KeyEnv) (cenv : CryptoEnv)
    (obj : JsonObject) (serverName keyId : String) :
    (env.kvCached = none → dbNonExpired env = [] →
      (∃ msg, env.remoteFetch = .error msg) →
      verifyRemoteSignature env cenv obj serverName keyId =
        .error ("Cannot fetch signing keys from " ++ serverName)) ∧
    (∀ keys, fetchRemoteServerKeys env serverName = .ok keys →
      keys.find? (fun k => k.key_id = keyId) = none →
      verifyRemoteSignature env cenv obj serverName keyId = .ok false) := by
  constructor
  · intro hkv hdb ⟨msg, hfetch⟩
    unfold verifyRemoteSignature getRemoteServerKey fetchRemoteServerKeys
    rw [hkv, hdb, hfetch]
    simp [Except.map]
  · intro keys hfetch hfind
    unfold verifyRemoteSignature getRemoteServerKey
    rw [hfetch]
    simp [Except.map, hfind]


/-- Claim C6 witness: the miss-behavior theorem applied to the empty
environment (first conjunct) and to an environment with a cached key of a
different key ID (second conjunct). -/
theorem verifyRemoteSignature_miss_behavior_witness :
    verifyRemoteSignature emptyKeyEnv sampleCryptoEnv .nil "other.example" "ed25519:a" =
      .error "Cannot fetch signing keys from other.example" ∧
    verifyRemoteSignature
      { emptyKeyEnv with kvCached := some [{ server_name := "kv.example", key_id := "ed25519:b" }] }
      sampleCryptoEnv .nil "kv.example" "ed25519:a" = .ok false :=
  ⟨(verifyRemoteSignature_miss_behavior emptyKeyEnv sampleCryptoEnv .nil
      "other.example" "ed25519:a").1 rfl rfl ⟨"HTTP 404 from remote", rfl⟩,
   (verifyRemoteSignature_miss_behavior
      { emptyKeyEnv with kvCached := some [{ server_name := "kv.example", key_id := "ed25519:b" }] }
      sampleCryptoEnv .nil "kv.example" "ed25519:a").2
      [{ server_name := "kv.example", key_id := "ed25519:b" }] rfl (by decide)⟩


/-- Claim C5 counterexample: swapping the two input state sets changes the
resolved state.  The conflicted power-levels pair makes
reverseTopologicalPowerOrder pick whichever power-levels event comes first
as its power table, reversing the order of the two invite events for the
slot (m.room.member, @t:x), whose last allowed event wins. -/
theorem resolveState_not_commutative :
    cxM2 ∈ resolveState "10" [cxS1, cxS2] ∧
    cxM2 ∉ resolveState "10" [cxS2, cxS1] ∧
    cxM1 ∈ resolveState "10" [cxS2, cxS1] := by
  refine ⟨by decide, by decide, by decide⟩


/-- Claim C2 counterexample: a slot present in one input set and omitted by
the other is classified as conflicted by separateState, while the claim
says a slot every set either omits or agrees on is unconflicted. -/
theorem separateState_omitted_slot_is_conflicted :
    (separateState [[c2Name], []]).2.lookup (stateKey "m.room.name" "") = some [c2Name] ∧
    (separateState [[c2Name], []]).1.lookup (stateKey "m.room.name" "") = none :=
  ⟨rfl, rfl⟩


theorem assocLookup_set_self (l : List ((String × String) × α)) (k : String × String) (v : α) :
    assocLookup (assocSet l k v) k = some v := by
  induction l with
  | nil => simp [assocSet, assocLookup]
  | cons e r ih =>
    by_cases h : e.1 = k
    · simp [assocSet, assocLookup, h]
    · simp [assocSet, assocLookup, h, ih]


theorem assocLookup_set_ne (l : List ((String × String) × α)) (k k2 : String × String) (v : α)
    (h : k2 ≠ k) : assocLookup (assocSet l k v) k2 = assocLookup l k2 := by
  induction l with
  | nil => simp [assocSet, assocLookup, Ne.symm h]
  | cons e r ih =>
    by_cases h1 : e.1 = k
    · simp [assocSet, assocLookup, h1, Ne.symm h]
    · by_cases h2 : e.1 = k2
      · simp [assocSet, assocLookup, h1, h2, h]
      · simp [assocSet, assocLookup, h1, h2, ih]


theorem assocLookup_isSome_iff_mem (l : List ((String × String) × α)) (k : String × String) :
    (assocLookup l k).isSome = true ↔ k ∈ l.map Prod.fst := by
  induction l with
  | nil => simp [assocLookup]
  | cons e r ih =>
    by_cases h : e.1 = k
    · simp [assocLookup, h]
    · simp [assocLookup, h, ih, Ne.symm h]


theorem assocLookup_mem (l : List ((String × String) × α)) (k : String × String) (v : α)
    (h : assocLookup l k = some v) : (k, v) ∈ l := by
  induction l with
  | nil => simp [assocLookup] at h
  | cons e r ih =>
    by_cases h1 : e.1 = k
    · rw [assocLookup, if_pos h1] at h
      cases h
      subst h1
      exact List.mem_cons_self e r
    · rw [assocLookup, if_neg h1] at h
      exact List.mem_cons_of_mem e (ih h)


theorem assocSet_keys_mem (l : List ((String × String) × α)) (k k2 : String × String) (v : α) :
    k2 ∈ (assocSet l k v).map Prod.fst ↔ k2 ∈ l.map Prod.fst ∨ k2 = k := by
  induction l with
  | nil => simp [assocSet]
  | cons e r ih =>
    by_cases h1 : e.1 = k
    · subst h1
      simp [assocSet]
      tauto
    · rw [assocSet, if_neg h1]
      simp only [List.map_cons, List.mem_cons, ih]
      tauto


theorem nodupKeys_set (l : List ((String × String) × α)) (k : String × String) (v : α)
    (h : NodupKeys l) : NodupKeys (assocSet l k v) := by
  induction l with
  | nil => simp [assocSet, NodupKeys]
  | cons e r ih =>
    unfold NodupKeys at h
    simp only [List.map_cons, List.nodup_cons] at h
    by_cases h1 : e.1 = k
    · unfold NodupKeys
      rw [assocSet, if_pos h1]
      simp only [List.map_cons, List.nodup_cons]
      exact ⟨h1 ▸ h.1, h.2⟩
    · unfold NodupKeys
      rw [assocSet, if_neg h1]
      simp only [List.map_cons, List.nodup_cons]
      constructor
      · intro hmem
        rcases (assocSet_keys_mem r k e.1 v).mp hmem with hin | heq
        · exact h.1 hin
        · exact h1 heq
      · exact ih h.2


theorem assocLookup_append (l₁ l₂ : List ((String × String) × α)) (k : String × String) :
    assocLookup (l₁ ++ l₂) k =
      match assocLookup l₁ k with
      | some v => some v
      | none => assocLookup l₂ k := by
  induction l₁ with
  | nil => simp [assocLookup]
  | cons e r ih =>
    by_cases h : e.1 = k
    · simp [assocLookup, h]
    · simp [assocLookup, h, ih]


theorem assocLookup_split (l : List ((String × String) × α)) (k : String × String) (v : α)
    (h : assocLookup l k = some v) :
    ∃ l₁ l₂, l = l₁ ++ (k, v) :: l₂ ∧ k ∉ l₁.map Prod.fst := by
  induction l with
  | nil => simp [assocLookup] at h
  | cons e r ih =>
    by_cases h1 : e.1 = k
    · rw [assocLookup, if_pos h1] at h
      cases h
      refine ⟨[], r, ?_, by simp⟩
      subst h1
      rfl
    · rw [assocLookup, if_neg h1] at h
      obtain ⟨l₁, l₂, rfl, hnot⟩ := ih h
      refine ⟨e :: l₁, l₂, rfl, ?_⟩
      simp only [List.map_cons, List.mem_cons]
      rintro (he | hin)
      · exact h1 he.symm
      · exact hnot hin


theorem nodupKeys_middle (l₁ l₂ : List ((String × String) × α)) (k : String × String) (v : α)
    (h : NodupKeys (l₁ ++ (k, v) :: l₂)) :
    NodupKeys (l₁ ++ l₂) ∧ k ∉ (l₁ ++ l₂).map Prod.fst := by
  unfold NodupKeys at h ⊢
  rw [List.map_append, List.map_cons] at h
  rw [List.nodup_middle] at h
  rw [List.nodup_cons] at h
  refine ⟨?_, ?_⟩
  · rw [List.map_append]
    exact h.2
  · rw [List.map_append]
    exact h.1


theorem assoc_perm_of_lookup_eq :
    ∀ (xs ys : List ((String × String) × α)), NodupKeys xs → NodupKeys ys →
      (∀ k, assocLookup xs k = assocLookup ys k) → List.Perm xs ys
  | [], ys, _, _, h => by
    cases ys with
    | nil => exact List.Perm.refl _
    | cons e r =>
      exfalso
      have := h e.1
      rw [assocLookup] at this
      rw [assocLookup, if_pos rfl] at this
      exact Option.noConfusion this
  | (k0, v0) :: xs', ys, hx, hy, h => by
    have h0 : assocLookup ys k0 = some v0 := by
      have := h k0
      rw [assocLookup, if_pos rfl] at this
      exact this.symm
    obtain ⟨ys₁, ys₂, rfl, hnotin⟩ := assocLookup_split ys k0 v0 h0
    obtain ⟨hy', hknotin⟩ := nodupKeys_middle ys₁ ys₂ k0 v0 hy
    have hx' : NodupKeys xs' := by
      unfold NodupKeys at hx ⊢
      exact (List.nodup_cons.mp hx).2
    have hk0x : k0 ∉ xs'.map Prod.fst := by
      unfold NodupKeys at hx
      exact (List.nodup_cons.mp hx).1
    have hlookups : ∀ k, assocLookup xs' k = assocLookup (ys₁ ++ ys₂) k := by
      intro k
      by_cases hk : k = k0
      · subst hk
        have hxnone : assocLookup xs' k = none := by
          cases hres : assocLookup xs' k with
          | none => rfl
          | some w =>
            exact absurd ((assocLookup_isSome_iff_mem xs' k).mp (by simp [hres])) hk0x
        have hynone : assocLookup (ys₁ ++ ys₂) k = none := by
          cases hres : assocLookup (ys₁ ++ ys₂) k with
          | none => rfl
          | some w =>
            exact absurd ((assocLookup_isSome_iff_mem _ k).mp (by simp [hres])) hknotin
        rw [hxnone, hynone]
      · have hstep := h k
        rw [assocLookup, if_neg (fun he => hk (by simpa using he.symm))] at hstep
        rw [hstep, assocLookup_append, assocLookup_append]
        cases assocLookup ys₁ k with
        | some w => rfl
        | none =>
          rw [assocLookup, if_neg (by simpa using fun he => hk he.symm)]
    exact ((assoc_perm_of_lookup_eq xs' (ys₁ ++ ys₂) hx' hy' hlookups).cons (k0, v0)).trans
      List.perm_middle.symm


theorem assoc_flatten_perm :
    ∀ (xs ys : List ((String × String) × List PDU)), NodupKeys xs → NodupKeys ys →
      (∀ k, (assocLookup xs k).isSome = (assocLookup ys k).isSome) →
      (∀ k l₁ l₂, assocLookup xs k = some l₁ → assocLookup ys k = some l₂ → List.Perm l₁ l₂) →
      List.Perm (xs.map Prod.snd).flatten (ys.map Prod.snd).flatten
  | [], ys, _, _, hsome, _ => by
    cases ys with
    | nil => exact List.Perm.refl _
    | cons e r =>
      exfalso
      have := hsome e.1
      rw [assocLookup] at this
      rw [assocLookup, if_pos rfl] at this
      simp at this
  | (k0, v0) :: xs', ys, hx, hy, hsome, hrel => by
    have h0 : ∃ w0, assocLookup ys k0 = some w0 := by
      have := hsome k0
      rw [assocLookup, if_pos rfl] at this
      cases hres : assocLookup ys k0 with
      | none => rw [hres] at this; simp at this
      | some w => exact ⟨w, rfl⟩
    obtain ⟨w0, hw0⟩ := h0
    have hvw : List.Perm v0 w0 := hrel k0 v0 w0 (by rw [assocLookup, if_pos rfl]) hw0
    obtain ⟨ys₁, ys₂, rfl, hnotin⟩ := assocLookup_split ys k0 w0 hw0
    obtain ⟨hy', hknotin⟩ := nodupKeys_middle ys₁ ys₂ k0 w0 hy
    have hx' : NodupKeys xs' := (List.nodup_cons.mp hx).2
    have hk0x : k0 ∉ xs'.map Prod.fst := (List.nodup_cons.mp hx).1
    have hmid : ∀ k, k ≠ k0 →
        assocLookup (ys₁ ++ (k0, w0) :: ys₂) k = assocLookup (ys₁ ++ ys₂) k := by
      intro k hk
      rw [assocLookup_append, assocLookup_append]
      cases assocLookup ys₁ k with
      | some w => rfl
      | none =>
        rw [assocLookup, if_neg (by simpa using fun he => hk he.symm)]
    have hsome' : ∀ k, (assocLookup xs' k).isSome = (assocLookup (ys₁ ++ ys₂) k).isSome := by
      intro k
      by_cases hk : k = k0
      · subst hk
        have hxnone : assocLookup xs' k = none := by
          cases hres : assocLookup xs' k with
          | none => rfl
          | some w =>
            exact absurd ((assocLookup_isSome_iff_mem xs' k).mp (by simp [hres])) hk0x
        have hynone : assocLookup (ys₁ ++ ys₂) k = none := by
          cases hres : assocLookup (ys₁ ++ ys₂) k with
          | none => rfl
          | some w =>
            exact absurd ((assocLookup_isSome_iff_mem _ k).mp (by simp [hres])) hknotin
        rw [hxnone, hynone]
      · have := hsome k
        rw [assocLookup, if_neg (by simpa using fun he => hk he.symm)] at this
        rw [this, hmid k hk]
    have hrel' : ∀ k l₁ l₂, assocLookup xs' k = some l₁ → assocLookup (ys₁ ++ ys₂) k = some l₂ →
        List.Perm l₁ l₂ := by
      intro k l₁ l₂ hl₁ hl₂
      by_cases hk : k = k0
      · subst hk
        exact absurd ((assocLookup_isSome_iff_mem xs' k).mp (by simp [hl₁])) hk0x
      · refine hrel k l₁ l₂ ?_ ?_
        · rw [assocLookup, if_neg (by simpa using fun he => hk he.symm)]
          exact hl₁
        · rw [hmid k hk]
          exact hl₂
    have ih := assoc_flatten_perm xs' (ys₁ ++ ys₂) hx' hy' hsome' hrel'
    simp only [List.map_cons, List.flatten_cons, List.map_append, List.flatten_append] at ih ⊢
    have step1 : List.Perm (v0 ++ (xs'.map Prod.snd).flatten)
        (w0 ++ ((ys₁.map Prod.snd).flatten ++ (ys₂.map Prod.snd).flatten)) := hvw.append ih
    have step2 : List.Perm (w0 ++ ((ys₁.map Prod.snd).flatten ++ (ys₂.map Prod.snd).flatten))
        ((ys₁.map Prod.snd).flatten ++ (w0 ++ (ys₂.map Prod.snd).flatten)) := by
      rw [← List.append_assoc, ← List.append_assoc]
      exact (List.perm_append_comm).append_right _
    exact step1.trans step2


theorem SMap.lookup_set_self (m : SMap α) (k : String × String) (v : α) :
    (m.set k v).lookup k = some v := assocLookup_set_self m.entries k v


theorem SMap.lookup_set_ne (m : SMap α) (k k2 : String × String) (v : α) (h : k2 ≠ k) :
    (m.set k v).lookup k2 = m.lookup k2 := assocLookup_set_ne m.entries k k2 v h


theorem SMap.lookup_isSome_iff_mem_keysList (m : SMap α) (k : String × String) :
    (m.lookup k).isSome = true ↔ k ∈ m.keysList := assocLookup_isSome_iff_mem m.entries k


theorem length_filterMap_eq_iff (f : α → Option β) :
    ∀ l : List α, (l.filterMap f).length = l.length ↔ ∀ x ∈ l, (f x).isSome = true := by
  intro l
  induction l with
  | nil => simp
  | cons a r ih =>
    cases hfa : f a with
    | none =>
      simp only [List.filterMap_cons, hfa, List.length_cons]
      constructor
      · intro h
        exfalso
        have hle := List.length_filterMap_le f r
        omega
      · intro h
        exfalso
        have := h a (by simp)
        rw [hfa] at this
        simp at this
    | some b =>
      simp only [List.filterMap_cons, hfa, List.length_cons]
      constructor
      · intro h x hx
        rcases List.mem_cons.mp hx with rfl | hxr
        · simp [hfa]
        · exact (ih.mp (by omega)) x hxr
      · intro h
        have := ih.mpr (fun x hx => h x (List.mem_cons_of_mem a hx))
        omega


theorem mem_addKeyOnce (acc : List (String × String)) (k x : String × String) :
    x ∈ addKeyOnce acc k ↔ x ∈ acc ∨ x = k := by
  unfold addKeyOnce
  by_cases h : k ∈ acc
  · rw [if_pos h]
    constructor
    · exact Or.inl
    · rintro (hx | rfl)
      · exact hx
      · exact h
  · rw [if_neg h]
    simp


theorem nodup_addKeyOnce (acc : List (String × String)) (k : String × String)
    (h : acc.Nodup) : (addKeyOnce acc k).Nodup := by
  unfold addKeyOnce
  by_cases hk : k ∈ acc
  · rwa [if_pos hk]
  · rw [if_neg hk]
    refine h.append (by simp) ?_
    intro a ha hb
    rw [List.mem_singleton] at hb
    subst hb
    exact hk ha


theorem mem_foldl_addKeyOnce :
    ∀ (ks : List (String × String)) (acc : List (String × String)) (x : String × String),
      x ∈ ks.foldl addKeyOnce acc ↔ x ∈ acc ∨ x ∈ ks
  | [], acc, x => by simp
  | k :: r, acc, x => by
    rw [List.foldl_cons, mem_foldl_addKeyOnce r (addKeyOnce acc k) x, mem_addKeyOnce]
    simp only [List.mem_cons]
    tauto


theorem nodup_foldl_addKeyOnce :
    ∀ (ks : List (String × String)) (acc : List (String × String)),
      acc.Nodup → (ks.foldl addKeyOnce acc).Nodup
  | [], _acc, h => h
  | k :: r, acc, h => nodup_foldl_addKeyOnce r (addKeyOnce acc k) (nodup_addKeyOnce acc k h)


theorem mem_collectAllKeys :
    ∀ (maps : List RoomStateMap) (x : String × String),
      x ∈ collectAllKeys maps ↔ ∃ m ∈ maps, x ∈ m.keysList := by
  have gen : ∀ (maps : List RoomStateMap) (acc : List (String × String)) (x : String × String),
      x ∈ maps.foldl (fun acc m => m.keysList.foldl addKeyOnce acc) acc ↔
        x ∈ acc ∨ ∃ m ∈ maps, x ∈ m.keysList := by
    intro maps
    induction maps with
    | nil => simp
    | cons m r ih =>
      intro acc x
      rw [List.foldl_cons, ih, mem_foldl_addKeyOnce]
      simp only [List.mem_cons]
      constructor
      · rintro ((hx | hm) | ⟨m2, hm2, hx⟩)
        · exact Or.inl hx
        · exact Or.inr ⟨m, Or.inl rfl, hm⟩
        · exact Or.inr ⟨m2, Or.inr hm2, hx⟩
      · rintro (hx | ⟨m2, (rfl | hm2), hx⟩)
        · exact Or.inl (Or.inl hx)
        · exact Or.inl (Or.inr hx)
        · exact Or.inr ⟨m2, hm2, hx⟩
  intro maps x
  rw [collectAllKeys, gen]
  simp


theorem nodup_collectAllKeys (maps : List RoomStateMap) : (collectAllKeys maps).Nodup := by
  have gen : ∀ (ms : List RoomStateMap) (acc : List (String × String)), acc.Nodup →
      (ms.foldl (fun acc m => m.keysList.foldl addKeyOnce acc) acc).Nodup := by
    intro ms
    induction ms with
    | nil => exact fun _ h => h
    | cons m r ih => exact fun acc h => ih _ (nodup_foldl_addKeyOnce _ acc h)
  exact gen maps [] (by simp)


theorem dedupStringsAux_eq_nil :
    ∀ (l seen : List String), dedupStringsAux l seen = [] ↔ ∀ s ∈ l, s ∈ seen
  | [], seen => by simp [dedupStringsAux]
  | s :: r, seen => by
    unfold dedupStringsAux
    by_cases h : s ∈ seen
    · rw [if_pos h, dedupStringsAux_eq_nil r seen]
      constructor
      · intro hall x hx
        rcases List.mem_cons.mp hx with rfl | hxr
        · exact h
        · exact hall x hxr
      · intro hall x hx
        exact hall x (List.mem_cons_of_mem s hx)
    · rw [if_neg h]
      simp only [List.cons_ne_nil, false_iff]
      intro hall
      exact h (hall s (by simp))


theorem dedupStrings_length_one (l : List String) :
    (dedupStrings l).length = 1 ↔ l ≠ [] ∧ ∀ x ∈ l, ∀ y ∈ l, x = y := by
  cases l with
  | nil => simp [dedupStrings, dedupStringsAux]
  | cons a r =>
    unfold dedupStrings dedupStringsAux
    rw [if_neg (by simp)]
    simp only [List.length_cons, Nat.add_left_eq_self, List.length_eq_zero]
    rw [dedupStringsAux_eq_nil r [a]]
    constructor
    · intro h
      refine ⟨by simp, ?_⟩
      have hall : ∀ s ∈ a :: r, s = a := by
        intro s hs
        rcases List.mem_cons.mp hs with rfl | hsr
        · rfl
        · simpa using h s hsr
      intro x hx y hy
      rw [hall x hx, hall y hy]
    · rintro ⟨-, hall⟩ s hs
      simpa using hall s (List.mem_cons_of_mem a hs) a (by simp)


/-- The friendly reading of the unconflicted test: every map holds the
slot and all maps agree on the event ID. -/
theorem sepUnconflictedCond_iff (maps : List RoomStateMap) (key : String × String) :
    sepUnconflictedCond maps key ↔
      (maps ≠ [] ∧ (∀ m ∈ maps, ((m : RoomStateMap).lookup key).isSome = true) ∧
        (∀ m1 ∈ maps, ∀ m2 ∈ maps, ∀ e1 e2 : PDU, m1.lookup key = some e1 →
          m2.lookup key = some e2 → e1.event_id = e2.event_id)) := by
  unfold sepUnconflictedCond
  rw [dedupStrings_length_one]
  unfold eventsForKey
  rw [length_filterMap_eq_iff]
  constructor
  · rintro ⟨⟨hne, hall⟩, hlen⟩
    refine ⟨?_, hlen, ?_⟩
    · intro hmaps
      subst hmaps
      simp at hne
    · intro m1 hm1 m2 hm2 e1 e2 he1 he2
      refine hall e1.event_id ?_ e2.event_id ?_
      · exact List.mem_map.mpr ⟨e1, List.mem_filterMap.mpr ⟨m1, hm1, he1⟩, rfl⟩
      · exact List.mem_map.mpr ⟨e2, List.mem_filterMap.mpr ⟨m2, hm2, he2⟩, rfl⟩
  · rintro ⟨hne, hsome, hagree⟩
    refine ⟨⟨?_, ?_⟩, hsome⟩
    · cases maps with
      | nil => exact absurd rfl hne
      | cons m r =>
        obtain ⟨e, he⟩ := Option.isSome_iff_exists.mp (hsome m (by simp))
        simp only [ne_eq, List.map_eq_nil_iff, List.filterMap_eq_nil_iff]
        intro hnone
        have := hnone m (by simp)
        rw [he] at this
        simp at this
    · intro x hx y hy
      obtain ⟨e1, he1, rfl⟩ := List.mem_map.mp hx
      obtain ⟨m1, hm1, hme1⟩ := List.mem_filterMap.mp he1
      obtain ⟨e2, he2, rfl⟩ := List.mem_map.mp hy
      obtain ⟨m2, hm2, hme2⟩ := List.mem_filterMap.mp he2
      exact hagree m1 hm1 m2 hm2 e1 e2 hme1 hme2


theorem sepFold_untouched (maps : List RoomStateMap) :
    ∀ (ks : List (String × String)) (acc : RoomStateMap × SMap (List PDU))
      (key : String × String), key ∉ ks →
      ((ks.foldl (separateStep maps) acc).1.lookup key = acc.1.lookup key ∧
       (ks.foldl (separateStep maps) acc).2.lookup key = acc.2.lookup key)
  | [], acc, key, _ => ⟨rfl, rfl⟩
  | k :: r, acc, key, hnot => by
    have hne : key ≠ k := fun he => hnot (he ▸ List.mem_cons_self k r)
    have hnr : key ∉ r := fun hm => hnot (List.mem_cons_of_mem k hm)
    rw [List.foldl_cons]
    obtain ⟨h1, h2⟩ := sepFold_untouched maps r (separateStep maps acc k) key hnr
    rw [h1, h2]
    unfold separateStep
    by_cases hc : sepUnconflictedCond maps k
    · rw [if_pos hc]
      cases eventsForKey maps k with
      | nil => exact ⟨rfl, rfl⟩
      | cons e rest => exact ⟨SMap.lookup_set_ne acc.1 k key e hne, rfl⟩
    · rw [if_neg hc]
      exact ⟨rfl, SMap.lookup_set_ne acc.2 k key _ hne⟩


theorem sepFold_touched (maps : List RoomStateMap) :
    ∀ (ks : List (String × String)) (acc : RoomStateMap × SMap (List PDU))
      (key : String × String), key ∈ ks → ks.Nodup →
      ((ks.foldl (separateStep maps) acc).1.lookup key =
          (if sepUnconflictedCond maps key then
            (match eventsForKey maps key with
             | e :: _ => some e
             | [] => acc.1.lookup key)
           else acc.1.lookup key) ∧
       (ks.foldl (separateStep maps) acc).2.lookup key =
          (if sepUnconflictedCond maps key then acc.2.lookup key
           else some (dedupById (eventsForKey maps key) [])))
  | [], _, key, hmem, _ => by simp at hmem
  | k :: r, acc, key, hmem, hnodup => by
    rw [List.foldl_cons]
    by_cases hk : key = k
    · subst hk
      have hnr : key ∉ r := (List.nodup_cons.mp hnodup).1
      obtain ⟨h1, h2⟩ := sepFold_untouched maps r (separateStep maps acc key) key hnr
      rw [h1, h2]
      unfold separateStep
      by_cases hc : sepUnconflictedCond maps key
      · rw [if_pos hc, if_pos hc, if_pos hc]
        cases eventsForKey maps key with
        | nil => exact ⟨rfl, rfl⟩
        | cons e rest => exact ⟨SMap.lookup_set_self acc.1 key e, rfl⟩
      · rw [if_neg hc, if_neg hc, if_neg hc]
        exact ⟨rfl, SMap.lookup_set_self acc.2 key _⟩
    · have hmr : key ∈ r := by
        rcases List.mem_cons.mp hmem with he | hr
        · exact absurd he hk
        · exact hr
      obtain ⟨h1, h2⟩ := sepFold_touched maps r (separateStep maps acc k) key hmr
        (List.nodup_cons.mp hnodup).2
      rw [h1, h2]
      unfold separateStep
      by_cases hc : sepUnconflictedCond maps k
      · rw [if_pos hc]
        cases eventsForKey maps k with
        | nil => exact ⟨rfl, rfl⟩
        | cons e rest =>
          constructor
          · by_cases hck : sepUnconflictedCond maps key
            · rw [if_pos hck, if_pos hck]
              cases eventsForKey maps key with
              | nil => exact SMap.lookup_set_ne acc.1 k key e hk
              | cons e2 rest2 => rfl
            · rw [if_neg hck, if_neg hck]
              exact SMap.lookup_set_ne acc.1 k key e hk
          · rfl
      · rw [if_neg hc]
        constructor
        · rfl
        · by_cases hck : sepUnconflictedCond maps key
          · rw [if_pos hck, if_pos hck]
            exact SMap.lookup_set_ne acc.2 k key _ hk
          · rw [if_neg hck, if_neg hck]


theorem separateState_classification (stateSets : List (List PDU)) (key : String × String) :
    ((((separateState stateSets).1.lookup key).isSome = true) ↔
      ((stateSets.map buildStateMap ≠ []) ∧
        (∀ m ∈ stateSets.map buildStateMap, ((m : RoomStateMap).lookup key).isSome = true) ∧
        (∀ m1 ∈ stateSets.map buildStateMap, ∀ m2 ∈ stateSets.map buildStateMap,
          ∀ e1 e2 : PDU, m1.lookup key = some e1 → m2.lookup key = some e2 →
            e1.event_id = e2.event_id))) ∧
    ((((separateState stateSets).2.lookup key).isSome = true) ↔
      ((∃ m ∈ stateSets.map buildStateMap, ((m : RoomStateMap).lookup key).isSome = true) ∧
        ¬((∀ m ∈ stateSets.map buildStateMap, ((m : RoomStateMap).lookup key).isSome = true) ∧
          (∀ m1 ∈ stateSets.map buildStateMap, ∀ m2 ∈ stateSets.map buildStateMap,
            ∀ e1 e2 : PDU, m1.lookup key = some e1 → m2.lookup key = some e2 →
              e1.event_id = e2.event_id)))) := by
  rw [← sepUnconflictedCond_iff]
  unfold separateState
  by_cases hin : key ∈ collectAllKeys (stateSets.map buildStateMap)
  · obtain ⟨h1, h2⟩ := sepFold_touched (stateSets.map buildStateMap)
      (collectAllKeys (stateSets.map buildStateMap)) (⟨[]⟩, ⟨[]⟩) key hin
      (nodup_collectAllKeys _)
    rw [h1, h2]
    have hexists : ∃ m ∈ stateSets.map buildStateMap,
        ((m : RoomStateMap).lookup key).isSome = true := by
      obtain ⟨m, hm, hk⟩ := (mem_collectAllKeys _ key).mp hin
      exact ⟨m, hm, (SMap.lookup_isSome_iff_mem_keysList m key).mpr hk⟩
    constructor
    · by_cases hc : sepUnconflictedCond (stateSets.map buildStateMap) key
      · rw [if_pos hc]
        cases hev : eventsForKey (stateSets.map buildStateMap) key with
        | nil =>
          exfalso
          obtain ⟨hlen1, _⟩ := hc
          rw [hev] at hlen1
          simp [dedupStrings, dedupStringsAux] at hlen1
        | cons e rest => simp [hc]
      · rw [if_neg hc]
        simp [hc, SMap.lookup, assocLookup]
    · by_cases hc : sepUnconflictedCond (stateSets.map buildStateMap) key
      · rw [if_pos hc]
        simp only [SMap.lookup]
        constructor
        · intro h
          simp [assocLookup] at h
        · rintro ⟨-, hnc⟩
          obtain ⟨hne2, hall, hagree⟩ := (sepUnconflictedCond_iff _ _).mp hc
          exact (hnc ⟨hall, hagree⟩).elim
      · rw [if_neg hc]
        simp only [Option.isSome_some, true_iff]
        refine ⟨hexists, ?_⟩
        intro hand
        obtain ⟨m0, hm0, -⟩ := hexists
        exact hc ((sepUnconflictedCond_iff _ _).mpr
          ⟨List.ne_nil_of_mem hm0, hand.1, hand.2⟩)
  · obtain ⟨h1, h2⟩ := sepFold_untouched (stateSets.map buildStateMap)
      (collectAllKeys (stateSets.map buildStateMap)) (⟨[]⟩, ⟨[]⟩) key hin
    rw [h1, h2]
    have hnoex : ¬ ∃ m ∈ stateSets.map buildStateMap,
        ((m : RoomStateMap).lookup key).isSome = true := by
      intro hex
      obtain ⟨m, hm, hk⟩ := hex
      exact hin ((mem_collectAllKeys _ key).mpr
        ⟨m, hm, (SMap.lookup_isSome_iff_mem_keysList m key).mp hk⟩)
    constructor
    · simp only [SMap.lookup, assocLookup]
      constructor
      · intro h
        simp at h
      · intro hc
        exfalso
        obtain ⟨hne, hall, -⟩ := (sepUnconflictedCond_iff _ _).mp hc
        obtain ⟨m, hm⟩ := List.exists_mem_of_ne_nil _ hne
        exact hnoex ⟨m, hm, hall m hm⟩
    · simp only [SMap.lookup, assocLookup]
      constructor
      · intro h
        simp at h
      · rintro ⟨hex, -⟩
        exact (hnoex hex).elim


theorem mem_assocSet (l : List ((String × String) × α)) (k : String × String) (v : α) :
    ∀ p ∈ assocSet l k v, p ∈ l ∨ p = (k, v) := by
  induction l with
  | nil => simp [assocSet]
  | cons e r ih =>
    intro p hp
    by_cases h : e.1 = k
    · rw [assocSet, if_pos h] at hp
      rcases List.mem_cons.mp hp with rfl | hpr
      · exact Or.inr rfl
      · exact Or.inl (List.mem_cons_of_mem e hpr)
    · rw [assocSet, if_neg h] at hp
      rcases List.mem_cons.mp hp with heq | hpr
      · exact Or.inl (heq ▸ List.mem_cons_self e r)
      · rcases ih p hpr with hl | he
        · exact Or.inl (List.mem_cons_of_mem e hl)
        · exact Or.inr he


theorem buildStateMap_nodupKeys (l : List PDU) : NodupKeys (buildStateMap l).entries := by
  have gen : ∀ (ll : List PDU) (m : RoomStateMap), NodupKeys m.entries →
      NodupKeys (ll.foldl (fun map event =>
        match event.state_key with
        | some sk => map.set (stateKey event.type sk) event
        | none => map) m).entries := by
    intro ll
    induction ll with
    | nil => exact fun m h => h
    | cons e r ih =>
      intro m h
      rw [List.foldl_cons]
      refine ih _ ?_
      cases e.state_key with
      | none => simpa using h
      | some sk => exact nodupKeys_set m.entries (stateKey e.type sk) e h
  exact gen l ⟨[]⟩ (by simp [NodupKeys])


theorem buildStateMap_entry_prop (l : List PDU) :
    ∀ p ∈ (buildStateMap l).entries, slotOf p.2 = some p.1 ∧ p.2 ∈ l := by
  have gen : ∀ (ll : List PDU) (m : RoomStateMap),
      (∀ p ∈ m.entries, slotOf p.2 = some p.1 ∧ p.2 ∈ l) →
      (∀ e ∈ ll, e ∈ l) →
      ∀ p ∈ (ll.foldl (fun map event =>
        match event.state_key with
        | some sk => map.set (stateKey event.type sk) event
        | none => map) m).entries, slotOf p.2 = some p.1 ∧ p.2 ∈ l := by
    intro ll
    induction ll with
    | nil => exact fun m h _ => h
    | cons e r ih =>
      intro m h hsub
      rw [List.foldl_cons]
      refine ih _ ?_ (fun x hx => hsub x (List.mem_cons_of_mem e hx))
      cases hsk : e.state_key with
      | none => simpa using h
      | some sk =>
        intro p hp
        rcases mem_assocSet m.entries (stateKey e.type sk) e p hp with hin | rfl
        · exact h p hin
        · exact ⟨by simp [slotOf, hsk, stateKey], hsub e (List.mem_cons_self e r)⟩
  intro p hp
  exact gen l ⟨[]⟩ (by simp) (fun x hx => hx) p hp


theorem buildStateMap_lookup_prop (l : List PDU) (k : String × String) (e : PDU)
    (h : (buildStateMap l).lookup k = some e) : slotOf e = some k ∧ e ∈ l := by
  have := buildStateMap_entry_prop l (k, e) (assocLookup_mem _ k e h)
  exact this


theorem buildFold_lookup_no_slot :
    ∀ (l : List PDU) (m : RoomStateMap) (k : String × String),
      (∀ e ∈ l, slotOf e ≠ some k) →
      (l.foldl (fun map event =>
        match event.state_key with
        | some sk => map.set (stateKey event.type sk) event
        | none => map) m).lookup k = m.lookup k
  | [], m, k, _ => rfl
  | e :: r, m, k, h => by
    rw [List.foldl_cons]
    cases hsk : e.state_key with
    | none =>
      simp only [hsk]
      exact buildFold_lookup_no_slot r m k (fun x hx => h x (List.mem_cons_of_mem e hx))
    | some sk =>
      simp only [hsk]
      rw [buildFold_lookup_no_slot r _ k (fun x hx => h x (List.mem_cons_of_mem e hx))]
      refine SMap.lookup_set_ne m (stateKey e.type sk) k e ?_
      intro he
      exact h e (List.mem_cons_self e r) (by simp [slotOf, hsk, stateKey, he])


theorem buildFold_lookup_const :
    ∀ (l : List PDU) (m : RoomStateMap) (k : String × String) (e : PDU),
      m.lookup k = some e → (∀ e2 ∈ l, slotOf e2 = some k → e2 = e) →
      (l.foldl (fun map event =>
        match event.state_key with
        | some sk => map.set (stateKey event.type sk) event
        | none => map) m).lookup k = some e
  | [], m, k, e, hm, _ => hm
  | e0 :: r, m, k, e, hm, h => by
    rw [List.foldl_cons]
    cases hsk : e0.state_key with
    | none =>
      simp only [hsk]
      exact buildFold_lookup_const r m k e hm
        (fun x hx hs => h x (List.mem_cons_of_mem e0 hx) hs)
    | some sk =>
      simp only [hsk]
      refine buildFold_lookup_const r _ k e ?_
        (fun x hx hs => h x (List.mem_cons_of_mem e0 hx) hs)
      by_cases hslot : stateKey e0.type sk = k
      · have he0 : e0 = e := h e0 (List.mem_cons_self e0 r) (by
          rw [slotOf, hsk]
          exact congrArg some hslot)
        subst he0
        rw [hslot]
        exact SMap.lookup_set_self m k e0
      · rw [SMap.lookup_set_ne m (stateKey e0.type sk) k e0 (fun he => hslot he.symm)]
        exact hm


theorem buildFold_lookup_unique :
    ∀ (l : List PDU) (m : RoomStateMap) (k : String × String) (e : PDU),
      e ∈ l → slotOf e = some k → (∀ e2 ∈ l, slotOf e2 = some k → e2 = e) →
      (l.foldl (fun map event =>
        match event.state_key with
        | some sk => map.set (stateKey event.type sk) event
        | none => map) m).lookup k = some e
  | [], _, _, _, hmem, _, _ => by simp at hmem
  | e0 :: r, m, k, e, hmem, hslot, huniq => by
    rw [List.foldl_cons]
    by_cases h0 : slotOf e0 = some k
    · have he0 : e0 = e := huniq e0 (List.mem_cons_self e0 r) h0
      subst he0
      cases hsk : e0.state_key with
      | none => simp [slotOf, hsk] at h0
      | some sk =>
        simp only [hsk]
        have hkey : stateKey e0.type sk = k := by
          rw [slotOf, hsk] at h0
          exact Option.some.inj h0
        refine buildFold_lookup_const r _ k e0 ?_
          (fun x hx hs => huniq x (List.mem_cons_of_mem e0 hx) hs)
        rw [hkey]
        exact SMap.lookup_set_self m k e0
    · have hmr : e ∈ r := by
        rcases List.mem_cons.mp hmem with heq | hr
        · exact absurd (heq ▸ hslot) h0
        · exact hr
      cases hsk : e0.state_key with
      | none =>
        simp only [hsk]
        exact buildFold_lookup_unique r m k e hmr hslot
          (fun x hx hs => huniq x (List.mem_cons_of_mem e0 hx) hs)
      | some sk =>
        simp only [hsk]
        exact buildFold_lookup_unique r _ k e hmr hslot
          (fun x hx hs => huniq x (List.mem_cons_of_mem e0 hx) hs)


theorem nodupKeys_lookup_of_mem (l : List ((String × String) × α)) (k : String × String) (v : α)
    (hnd : NodupKeys l) (hmem : (k, v) ∈ l) : assocLookup l k = some v := by
  induction l with
  | nil => simp at hmem
  | cons e r ih =>
    unfold NodupKeys at hnd
    simp only [List.map_cons, List.nodup_cons] at hnd
    rcases List.mem_cons.mp hmem with heq | hr
    · rw [← heq, assocLookup, if_pos rfl]
    · rw [assocLookup]
      by_cases hk : e.1 = k
      · exfalso
        refine hnd.1 ?_
        rw [hk]
        exact List.mem_map.mpr ⟨(k, v), hr, rfl⟩
      · rw [if_neg hk]
        exact ih hnd.2 hr


theorem buildStateMap_WF (l : List PDU) : SMapWF (buildStateMap l) :=
  fun p hp => (buildStateMap_entry_prop l p hp).1


theorem buildStateMap_values_lookup (m : RoomStateMap) (hwf : SMapWF m)
    (hnd : NodupKeys m.entries) (k : String × String) :
    (buildStateMap m.values).lookup k = m.lookup k := by
  cases hm : m.lookup k with
  | some e =>
    have hmem : (k, e) ∈ m.entries := assocLookup_mem _ k e hm
    have hslot : slotOf e = some k := hwf (k, e) hmem
    refine buildFold_lookup_unique m.values ⟨[]⟩ k e
      (List.mem_map.mpr ⟨(k, e), hmem, rfl⟩) hslot ?_
    intro e2 he2 hs2
    obtain ⟨p, hp, rfl⟩ := List.mem_map.mp he2
    have hpslot := hwf p hp
    have hp1 : p.1 = k := by
      rw [hpslot] at hs2
      exact Option.some.inj hs2
    have hlk : assocLookup m.entries k = some p.2 :=
      nodupKeys_lookup_of_mem m.entries k p.2 hnd (by rw [← hp1]; exact hp)
    unfold SMap.lookup at hm
    rw [hm] at hlk
    exact (Option.some.inj hlk).symm
  | none =>
    have hno : ∀ e2 ∈ m.values, slotOf e2 ≠ some k := by
      intro e he hs
      obtain ⟨p, hp, rfl⟩ := List.mem_map.mp he
      have hpslot := hwf p hp
      have hp1 : p.1 = k := by
        rw [hpslot] at hs
        exact Option.some.inj hs
      have hlk : assocLookup m.entries k = some p.2 :=
        nodupKeys_lookup_of_mem m.entries k p.2 hnd (by rw [← hp1]; exact hp)
      unfold SMap.lookup at hm
      rw [hm] at hlk
      exact Option.noConfusion hlk
    have h0 := buildFold_lookup_no_slot m.values ⟨[]⟩ k hno
    exact h0.trans rfl


theorem mem_dedupById_subset :
    ∀ (l : List PDU) (seen : List String) (x : PDU), x ∈ dedupById l seen → x ∈ l
  | [], _, x, h => by simp [dedupById] at h
  | e :: r, seen, x, h => by
    unfold dedupById at h
    by_cases hs : e.event_id ∈ seen
    · rw [if_pos hs] at h
      exact List.mem_cons_of_mem e (mem_dedupById_subset r seen x h)
    · rw [if_neg hs] at h
      rcases List.mem_cons.mp h with rfl | hr
      · exact List.mem_cons_self _ _
      · exact List.mem_cons_of_mem e (mem_dedupById_subset r _ x hr)


theorem dedupById_id_complete :
    ∀ (l : List PDU) (seen : List String) (e : PDU), e ∈ l → e.event_id ∉ seen →
      ∃ x ∈ dedupById l seen, x.event_id = e.event_id
  | [], _, e, hmem, _ => by simp at hmem
  | e0 :: r, seen, e, hmem, hns => by
    unfold dedupById
    by_cases hs : e0.event_id ∈ seen
    · rw [if_pos hs]
      rcases List.mem_cons.mp hmem with rfl | hr
      · exact absurd hs hns
      · exact dedupById_id_complete r seen e hr hns
    · rw [if_neg hs]
      rcases List.mem_cons.mp hmem with rfl | hr
      · exact ⟨e, List.mem_cons_self e _, rfl⟩
      · by_cases hid : e.event_id = e0.event_id
        · exact ⟨e0, List.mem_cons_self e0 _, hid.symm⟩
        · obtain ⟨x, hx, hxid⟩ := dedupById_id_complete r (e0.event_id :: seen) e hr
            (by simp [hns, hid])
          exact ⟨x, List.mem_cons_of_mem e0 hx, hxid⟩


theorem dedupById_ids_nodup :
    ∀ (l : List PDU) (seen : List String),
      (dedupById l seen).Pairwise (fun a b => a.event_id ≠ b.event_id) ∧
      (∀ x ∈ dedupById l seen, x.event_id ∉ seen)
  | [], seen => by simp [dedupById]
  | e :: r, seen => by
    unfold dedupById
    by_cases hs : e.event_id ∈ seen
    · rw [if_pos hs]
      exact dedupById_ids_nodup r seen
    · rw [if_neg hs]
      obtain ⟨hpw, hnotin⟩ := dedupById_ids_nodup r (e.event_id :: seen)
      refine ⟨List.Pairwise.cons ?_ hpw, ?_⟩
      · intro x hx heq
        exact hnotin x hx (heq ▸ List.mem_cons_self e.event_id seen)
      · intro x hx
        rcases List.mem_cons.mp hx with rfl | hr
        · exact hs
        · exact fun hmem => hnotin x hr (List.mem_cons_of_mem _ hmem)


theorem dedupById_perm (l₁ l₂ : List PDU) (hperm : List.Perm l₁ l₂)
    (huniq : ∀ x ∈ l₁, ∀ y ∈ l₁, x.event_id = y.event_id → x = y) :
    List.Perm (dedupById l₁ []) (dedupById l₂ []) := by
  have hnd : ∀ (l : List PDU), (∀ x ∈ l, ∀ y ∈ l, x.event_id = y.event_id → x = y) →
      (dedupById l []).Nodup := by
    intro l hu
    have hpw := (dedupById_ids_nodup l []).1
    exact hpw.imp (fun hne heq => hne (congrArg PDU.event_id heq))
  have hmemiff : ∀ (l : List PDU), (∀ x ∈ l, ∀ y ∈ l, x.event_id = y.event_id → x = y) →
      ∀ x, x ∈ dedupById l [] ↔ x ∈ l := by
    intro l hu x
    constructor
    · exact mem_dedupById_subset l [] x
    · intro hx
      obtain ⟨y, hy, hyid⟩ := dedupById_id_complete l [] x hx (by simp)
      have : y = x := hu y (mem_dedupById_subset l [] y hy) x hx hyid
      exact this ▸ hy
  have huniq2 : ∀ x ∈ l₂, ∀ y ∈ l₂, x.event_id = y.event_id → x = y := by
    intro x hx y hy
    exact huniq x (hperm.mem_iff.mpr hx) y (hperm.mem_iff.mpr hy)
  refine (List.perm_ext_iff_of_nodup (hnd l₁ huniq) (hnd l₂ huniq2)).mpr ?_
  intro a
  rw [hmemiff l₁ huniq a, hmemiff l₂ huniq2 a]
  exact hperm.mem_iff


theorem sepFold_nodup (maps : List RoomStateMap) :
    ∀ (ks : List (String × String)) (acc : RoomStateMap × SMap (List PDU)),
      NodupKeys acc.1.entries → NodupKeys acc.2.entries →
      NodupKeys ((ks.foldl (separateStep maps) acc).1.entries) ∧
      NodupKeys ((ks.foldl (separateStep maps) acc).2.entries)
  | [], acc, h1, h2 => ⟨h1, h2⟩
  | k :: r, acc, h1, h2 => by
    rw [List.foldl_cons]
    refine sepFold_nodup maps r (separateStep maps acc k) ?_ ?_
    · unfold separateStep
      by_cases hc : sepUnconflictedCond maps k
      · rw [if_pos hc]
        cases eventsForKey maps k with
        | nil => exact h1
        | cons e rest => exact nodupKeys_set acc.1.entries k e h1
      · rw [if_neg hc]
        exact h1
    · unfold separateStep
      by_cases hc : sepUnconflictedCond maps k
      · rw [if_pos hc]
        cases eventsForKey maps k with
        | nil => exact h2
        | cons e rest => exact h2
      · rw [if_neg hc]
        exact nodupKeys_set acc.2.entries k _ h2


theorem separateState_nodup (stateSets : List (List PDU)) :
    NodupKeys (separateState stateSets).1.entries ∧
    NodupKeys (separateState stateSets).2.entries := by
  unfold separateState
  exact sepFold_nodup _ _ (⟨[]⟩, ⟨[]⟩) (by simp [NodupKeys]) (by simp [NodupKeys])


theorem mem_eventsForKey_slot (stateSets : List (List PDU)) (key : String × String) :
    ∀ e ∈ eventsForKey (stateSets.map buildStateMap) key,
      slotOf e = some key ∧ e ∈ stateSets.flatten := by
  intro e he
  obtain ⟨m, hm, hme⟩ := List.mem_filterMap.mp he
  obtain ⟨S, hS, rfl⟩ := List.mem_map.mp hm
  obtain ⟨hslot, hmem⟩ := buildStateMap_lookup_prop S key e hme
  exact ⟨hslot, List.mem_flatten.mpr ⟨S, hS, hmem⟩⟩


theorem sepFold_WF1 (stateSets : List (List PDU)) :
    ∀ (ks : List (String × String)) (acc : RoomStateMap × SMap (List PDU)),
      SMapWF acc.1 →
      SMapWF ((ks.foldl (separateStep (stateSets.map buildStateMap)) acc).1)
  | [], _, h => h
  | k :: r, acc, h => by
    rw [List.foldl_cons]
    refine sepFold_WF1 stateSets r (separateStep (stateSets.map buildStateMap) acc k) ?_
    unfold separateStep
    by_cases hc : sepUnconflictedCond (stateSets.map buildStateMap) k
    · rw [if_pos hc]
      cases hev : eventsForKey (stateSets.map buildStateMap) k with
      | nil => exact h
      | cons e rest =>
        intro p hp
        rcases mem_assocSet acc.1.entries k e p hp with hold | rfl
        · exact h p hold
        · exact (mem_eventsForKey_slot stateSets k e (hev ▸ List.mem_cons_self e rest)).1
    · rw [if_neg hc]
      exact h


theorem separateState_WF1 (stateSets : List (List PDU)) :
    SMapWF (separateState stateSets).1 := by
  unfold separateState
  exact sepFold_WF1 stateSets _ (⟨[]⟩, ⟨[]⟩) (by intro p hp; simp [SMap.entries] at hp)


theorem separateState_unconflicted_some (stateSets : List (List PDU)) (key : String × String)
    (hc : sepUnconflictedCond (stateSets.map buildStateMap) key) :
    (separateState stateSets).1.lookup key =
      (eventsForKey (stateSets.map buildStateMap) key).head? := by
  have hin : key ∈ collectAllKeys (stateSets.map buildStateMap) := by
    obtain ⟨hne, hall, -⟩ := (sepUnconflictedCond_iff _ _).mp hc
    obtain ⟨m, hm⟩ := List.exists_mem_of_ne_nil _ hne
    exact (mem_collectAllKeys _ key).mpr
      ⟨m, hm, (SMap.lookup_isSome_iff_mem_keysList m key).mp (hall m hm)⟩
  unfold separateState
  obtain ⟨h1, -⟩ := sepFold_touched (stateSets.map buildStateMap)
    (collectAllKeys (stateSets.map buildStateMap)) (⟨[]⟩, ⟨[]⟩) key hin
    (nodup_collectAllKeys _)
  rw [h1, if_pos hc]
  cases eventsForKey (stateSets.map buildStateMap) key with
  | nil => rfl
  | cons e rest => rfl


theorem separateState_unconflicted_none (stateSets : List (List PDU)) (key : String × String)
    (hnc : ¬ sepUnconflictedCond (stateSets.map buildStateMap) key) :
    (separateState stateSets).1.lookup key = none := by
  unfold separateState
  by_cases hin : key ∈ collectAllKeys (stateSets.map buildStateMap)
  · obtain ⟨h1, -⟩ := sepFold_touched (stateSets.map buildStateMap)
      (collectAllKeys (stateSets.map buildStateMap)) (⟨[]⟩, ⟨[]⟩) key hin
      (nodup_collectAllKeys _)
    rw [h1, if_neg hnc]
    rfl
  · obtain ⟨h1, -⟩ := sepFold_untouched (stateSets.map buildStateMap)
      (collectAllKeys (stateSets.map buildStateMap)) (⟨[]⟩, ⟨[]⟩) key hin
    rw [h1]
    rfl


theorem separateState_conflicted_char (stateSets : List (List PDU)) (key : String × String) :
    (separateState stateSets).2.lookup key =
      (if (∃ m ∈ stateSets.map buildStateMap, ((m : RoomStateMap).lookup key).isSome = true) ∧
          ¬ sepUnconflictedCond (stateSets.map buildStateMap) key then
        some (dedupById (eventsForKey (stateSets.map buildStateMap) key) [])
      else none) := by
  unfold separateState
  by_cases hin : key ∈ collectAllKeys (stateSets.map buildStateMap)
  · obtain ⟨-, h2⟩ := sepFold_touched (stateSets.map buildStateMap)
      (collectAllKeys (stateSets.map buildStateMap)) (⟨[]⟩, ⟨[]⟩) key hin
      (nodup_collectAllKeys _)
    rw [h2]
    have hexists : ∃ m ∈ stateSets.map buildStateMap,
        ((m : RoomStateMap).lookup key).isSome = true := by
      obtain ⟨m, hm, hk⟩ := (mem_collectAllKeys _ key).mp hin
      exact ⟨m, hm, (SMap.lookup_isSome_iff_mem_keysList m key).mpr hk⟩
    by_cases hc : sepUnconflictedCond (stateSets.map buildStateMap) key
    · rw [if_pos hc, if_neg (fun h => h.2 hc)]
      rfl
    · rw [if_neg hc, if_pos ⟨hexists, hc⟩]
  · obtain ⟨-, h2⟩ := sepFold_untouched (stateSets.map buildStateMap)
      (collectAllKeys (stateSets.map buildStateMap)) (⟨[]⟩, ⟨[]⟩) key hin
    rw [h2]
    have hnoex : ¬ ∃ m ∈ stateSets.map buildStateMap,
        ((m : RoomStateMap).lookup key).isSome = true := by
      rintro ⟨m, hm, hk⟩
      exact hin ((mem_collectAllKeys _ key).mpr
        ⟨m, hm, (SMap.lookup_isSome_iff_mem_keysList m key).mp hk⟩)
    rw [if_neg (fun h => hnoex h.1)]
    rfl


theorem sepCond_mono (maps maps2 : List RoomStateMap) (hp : List.Perm maps maps2)
    (key : String × String) (h : sepUnconflictedCond maps key) :
    sepUnconflictedCond maps2 key := by
  rw [sepUnconflictedCond_iff] at h ⊢
  obtain ⟨hne, hall, hagree⟩ := h
  refine ⟨?_, ?_, ?_⟩
  · intro h2
    subst h2
    exact hne hp.eq_nil
  · intro m hm
    exact hall m (hp.mem_iff.mpr hm)
  · intro m1 hm1 m2 hm2
    exact hagree m1 (hp.mem_iff.mpr hm1) m2 (hp.mem_iff.mpr hm2)


theorem sepCond_perm (maps maps2 : List RoomStateMap) (hp : List.Perm maps maps2)
    (key : String × String) :
    sepUnconflictedCond maps key ↔ sepUnconflictedCond maps2 key :=
  ⟨sepCond_mono maps maps2 hp key, sepCond_mono maps2 maps hp.symm key⟩


theorem head_perm_all_eq (l₁ l₂ : List α) (hp : List.Perm l₁ l₂)
    (hall : ∀ x ∈ l₁, ∀ y ∈ l₁, x = y) : l₁.head? = l₂.head? := by
  cases l₁ with
  | nil =>
    rw [hp.symm.eq_nil]
  | cons a r =>
    cases l₂ with
    | nil => exact absurd hp.eq_nil (by simp)
    | cons b s =>
      have hb : b ∈ a :: r := hp.mem_iff.mpr (List.mem_cons_self b s)
      have : a = b := hall a (List.mem_cons_self a r) b hb
      rw [this]
      rfl


theorem eventsForKey_all_eq (stateSets : List (List PDU)) (key : String × String)
    (H1 : ∀ x ∈ stateSets.flatten, ∀ y ∈ stateSets.flatten, x.event_id = y.event_id → x = y)
    (hc : sepUnconflictedCond (stateSets.map buildStateMap) key) :
    ∀ x ∈ eventsForKey (stateSets.map buildStateMap) key,
      ∀ y ∈ eventsForKey (stateSets.map buildStateMap) key, x = y := by
  obtain ⟨-, -, hagree⟩ := (sepUnconflictedCond_iff _ _).mp hc
  intro x hx y hy
  obtain ⟨m1, hm1, he1⟩ := List.mem_filterMap.mp hx
  obtain ⟨m2, hm2, he2⟩ := List.mem_filterMap.mp hy
  have hid : x.event_id = y.event_id := hagree m1 hm1 m2 hm2 x y he1 he2
  exact H1 x (mem_eventsForKey_slot stateSets key x hx).2
    y (mem_eventsForKey_slot stateSets key y hy).2 hid


theorem unconflicted_lookup_perm (stateSets stateSets2 : List (List PDU))
    (hperm : List.Perm stateSets stateSets2)
    (H1 : ∀ x ∈ stateSets.flatten, ∀ y ∈ stateSets.flatten, x.event_id = y.event_id → x = y)
    (key : String × String) :
    (separateState stateSets).1.lookup key = (separateState stateSets2).1.lookup key := by
  have hm : List.Perm (stateSets.map buildStateMap) (stateSets2.map buildStateMap) :=
    hperm.map _
  by_cases hc : sepUnconflictedCond (stateSets.map buildStateMap) key
  · have hc2 := (sepCond_perm _ _ hm key).mp hc
    rw [separateState_unconflicted_some _ _ hc, separateState_unconflicted_some _ _ hc2]
    exact head_perm_all_eq _ _ (hm.filterMap _) (eventsForKey_all_eq stateSets key H1 hc)
  · rw [separateState_unconflicted_none _ _ hc,
      separateState_unconflicted_none _ _ (fun h => hc ((sepCond_perm _ _ hm key).mpr h))]


theorem conflicted_lookup_perm (stateSets stateSets2 : List (List PDU))
    (hperm : List.Perm stateSets stateSets2)
    (H1 : ∀ x ∈ stateSets.flatten, ∀ y ∈ stateSets.flatten, x.event_id = y.event_id → x = y)
    (key : String × String) :
    (((separateState stateSets).2.lookup key).isSome =
      ((separateState stateSets2).2.lookup key).isSome) ∧
    (∀ l₁ l₂, (separateState stateSets).2.lookup key = some l₁ →
      (separateState stateSets2).2.lookup key = some l₂ → List.Perm l₁ l₂) := by
  have hm : List.Perm (stateSets.map buildStateMap) (stateSets2.map buildStateMap) :=
    hperm.map _
  rw [separateState_conflicted_char stateSets key,
    separateState_conflicted_char stateSets2 key]
  have hiff : ((∃ m ∈ stateSets.map buildStateMap,
        ((m : RoomStateMap).lookup key).isSome = true) ∧
      ¬ sepUnconflictedCond (stateSets.map buildStateMap) key) ↔
      ((∃ m ∈ stateSets2.map buildStateMap,
        ((m : RoomStateMap).lookup key).isSome = true) ∧
      ¬ sepUnconflictedCond (stateSets2.map buildStateMap) key) := by
    constructor
    · rintro ⟨⟨m, hmem, hk⟩, hnc⟩
      exact ⟨⟨m, hm.mem_iff.mp hmem, hk⟩,
        fun h => hnc ((sepCond_perm _ _ hm key).mpr h)⟩
    · rintro ⟨⟨m, hmem, hk⟩, hnc⟩
      exact ⟨⟨m, hm.mem_iff.mpr hmem, hk⟩,
        fun h => hnc ((sepCond_perm _ _ hm key).mp h)⟩
  by_cases hcnd : (∃ m ∈ stateSets.map buildStateMap,
      ((m : RoomStateMap).lookup key).isSome = true) ∧
      ¬ sepUnconflictedCond (stateSets.map buildStateMap) key
  · rw [if_pos hcnd, if_pos (hiff.mp hcnd)]
    refine ⟨rfl, ?_⟩
    intro l₁ l₂ h₁ h₂
    rw [← Option.some.inj h₁, ← Option.some.inj h₂]
    refine dedupById_perm _ _ (hm.filterMap _) ?_
    intro x hx y hy
    exact H1 x (mem_eventsForKey_slot stateSets key x hx).2
      y (mem_eventsForKey_slot stateSets key y hy).2
  · rw [if_neg hcnd, if_neg (fun h => hcnd (hiff.mpr h))]
    exact ⟨rfl, fun l₁ l₂ h₁ => Option.noConfusion h₁⟩


theorem insertSorted_perm (le : α → α → Bool) (a : α) :
    ∀ (l : List α), List.Perm (insertSorted le a l) (a :: l)
  | [] => List.Perm.refl _
  | b :: r => by
    unfold insertSorted
    by_cases h : le a b
    · rw [if_pos h]
    · rw [if_neg h]
      exact ((insertSorted_perm le a r).cons b).trans (List.Perm.swap a b r)


theorem isortBy_perm (le : α → α → Bool) :
    ∀ (l : List α), List.Perm (isortBy le l) l
  | [] => List.Perm.refl _
  | a :: r => (insertSorted_perm le a (isortBy le r)).trans ((isortBy_perm le r).cons a)


theorem insertSorted_pairwise (le : α → α → Bool)
    (htot : ∀ x y : α, le x y = false → le y x = true)
    (htrans : ∀ x y z : α, le x y = true → le y z = true → le x z = true) (a : α) :
    ∀ (l : List α), l.Pairwise (fun x y => le x y = true) →
      (insertSorted le a l).Pairwise (fun x y => le x y = true)
  | [], _ => List.pairwise_singleton _ _
  | b :: r, hp => by
    unfold insertSorted
    obtain ⟨hhead, htail⟩ := List.pairwise_cons.mp hp
    by_cases h : le a b
    · rw [if_pos h]
      refine List.Pairwise.cons ?_ hp
      intro y hy
      rcases List.mem_cons.mp hy with rfl | hyr
      · exact h
      · exact htrans a b y h (hhead y hyr)
    · rw [if_neg h]
      refine List.Pairwise.cons ?_ (insertSorted_pairwise le htot htrans a r htail)
      intro y hy
      have : y ∈ a :: r := (insertSorted_perm le a r).mem_iff.mp hy
      rcases List.mem_cons.mp this with rfl | hyr
      · exact htot y b (Bool.not_eq_true _ ▸ eq_false_of_ne_true h)
      · exact hhead y hyr


theorem isortBy_pairwise (le : α → α → Bool)
    (htot : ∀ x y : α, le x y = false → le y x = true)
    (htrans : ∀ x y z : α, le x y = true → le y z = true → le x z = true) :
    ∀ (l : List α), (isortBy le l).Pairwise (fun x y => le x y = true)
  | [] => List.Pairwise.nil
  | a :: r => insertSorted_pairwise le htot htrans a (isortBy le r)
      (isortBy_pairwise le htot htrans r)


theorem eq_of_sorted_perm_local (le : α → α → Bool) :
    ∀ (l₁ l₂ : List α), List.Perm l₁ l₂ →
      l₁.Pairwise (fun x y => le x y = true) → l₂.Pairwise (fun x y => le x y = true) →
      (∀ a ∈ l₁, ∀ b ∈ l₁, le a b = true → le b a = true → a = b) → l₁ = l₂
  | [], l₂, hp, _, _, _ => hp.symm.eq_nil.symm
  | a :: r, [], hp, _, _, _ => absurd hp.eq_nil (by simp)
  | a :: r, b :: s, hp, hs1, hs2, hanti => by
    have hab : a = b := by
      by_cases h : a = b
      · exact h
      · have hbm : b ∈ a :: r := hp.mem_iff.mpr (List.mem_cons_self b s)
        have hbr : b ∈ r := by
          rcases List.mem_cons.mp hbm with h1 | h1
          · exact absurd h1.symm h
          · exact h1
        have ham : a ∈ b :: s := hp.mem_iff.mp (List.mem_cons_self a r)
        have has : a ∈ s := by
          rcases List.mem_cons.mp ham with h1 | h1
          · exact absurd h1 h
          · exact h1
        have h1 : le a b = true := (List.pairwise_cons.mp hs1).1 b hbr
        have h2 : le b a = true := (List.pairwise_cons.mp hs2).1 a has
        exact hanti a (List.mem_cons_self a r) b hbm h1 h2
    subst hab
    have hrs : List.Perm r s := hp.cons_inv
    have htails : r = s :=
      eq_of_sorted_perm_local le r s hrs (List.pairwise_cons.mp hs1).2
        (List.pairwise_cons.mp hs2).2
        (fun x hx y hy => hanti x (List.mem_cons_of_mem a hx) y (List.mem_cons_of_mem a hy))
    rw [htails]


theorem rtpoComparator_le_iff (pl : EventContent) (a b : PDU) :
    (rtpoComparator pl a b ≤ 0) ↔
      (getUserPowerLevel pl b.sender < getUserPowerLevel pl a.sender ∨
        (getUserPowerLevel pl a.sender = getUserPowerLevel pl b.sender ∧
          (a.origin_server_ts < b.origin_server_ts ∨
            (a.origin_server_ts = b.origin_server_ts ∧
              ¬ (b.event_id < a.event_id))))) := by
  unfold rtpoComparator
  split_ifs with h1 h2 h3 h4
  · constructor
    · intro h
      exact Or.inl (by omega)
    · rintro (h | ⟨heq, -⟩)
      · omega
      · exact absurd heq h1
  · constructor
    · intro h
      have hpe : getUserPowerLevel pl a.sender = getUserPowerLevel pl b.sender := by omega
      exact Or.inr ⟨hpe, Or.inl (by omega)⟩
    · rintro (h | ⟨heq, h | ⟨hte, -⟩⟩)
      · omega
      · omega
      · exact absurd hte h2
  · constructor
    · rintro -
      have hpe : getUserPowerLevel pl a.sender = getUserPowerLevel pl b.sender := by omega
      have hte : a.origin_server_ts = b.origin_server_ts := by omega
      exact Or.inr ⟨hpe, Or.inr ⟨hte, lt_asymm h3⟩⟩
    · rintro -
      omega
  · constructor
    · intro h
      omega
    · rintro (h | ⟨hpe, h | ⟨hte, hnlt⟩⟩)
      · omega
      · omega
      · exact absurd h4 hnlt
  · constructor
    · rintro -
      have hpe : getUserPowerLevel pl a.sender = getUserPowerLevel pl b.sender := by omega
      have hte : a.origin_server_ts = b.origin_server_ts := by omega
      exact Or.inr ⟨hpe, Or.inr ⟨hte, h4⟩⟩
    · rintro -
      omega


theorem rtpoComparator_le_total (pl : EventContent) (a b : PDU) :
    rtpoComparator pl a b ≤ 0 ∨ rtpoComparator pl b a ≤ 0 := by
  rw [rtpoComparator_le_iff, rtpoComparator_le_iff]
  rcases lt_trichotomy (getUserPowerLevel pl a.sender) (getUserPowerLevel pl b.sender)
    with h | h | h
  · exact Or.inr (Or.inl h)
  · rcases lt_trichotomy a.origin_server_ts b.origin_server_ts with h2 | h2 | h2
    · exact Or.inl (Or.inr ⟨h, Or.inl h2⟩)
    · rcases lt_trichotomy a.event_id b.event_id with h3 | h3 | h3
      · exact Or.inl (Or.inr ⟨h, Or.inr ⟨h2, lt_asymm h3⟩⟩)
      · exact Or.inl (Or.inr ⟨h, Or.inr ⟨h2, by rw [h3]; exact lt_irrefl _⟩⟩)
      · exact Or.inr (Or.inr ⟨h.symm, Or.inr ⟨h2.symm, lt_asymm h3⟩⟩)
    · exact Or.inr (Or.inr ⟨h.symm, Or.inl h2⟩)
  · exact Or.inl (Or.inl h)


theorem rtpoComparator_le_trans (pl : EventContent) (a b c : PDU)
    (h1 : rtpoComparator pl a b ≤ 0) (h2 : rtpoComparator pl b c ≤ 0) :
    rtpoComparator pl a c ≤ 0 := by
  rw [rtpoComparator_le_iff] at h1 h2 ⊢
  rcases h1 with h | ⟨hpe, h | ⟨hte, hlt⟩⟩ <;>
    rcases h2 with g | ⟨gpe, g | ⟨gte, glt⟩⟩
  · exact Or.inl (lt_trans g h)
  · exact Or.inl (by omega)
  · exact Or.inl (by omega)
  · exact Or.inl (by omega)
  · exact Or.inr ⟨by omega, Or.inl (by omega)⟩
  · exact Or.inr ⟨by omega, Or.inl (by omega)⟩
  · exact Or.inl (by omega)
  · exact Or.inr ⟨by omega, Or.inl (by omega)⟩
  · exact Or.inr ⟨by omega, Or.inr ⟨by omega,
      not_lt.mpr (le_trans (not_lt.mp hlt) (not_lt.mp glt))⟩⟩


theorem rtpoComparator_antisymm_id (pl : EventContent) (a b : PDU)
    (h1 : rtpoComparator pl a b ≤ 0) (h2 : rtpoComparator pl b a ≤ 0) :
    a.event_id = b.event_id := by
  rw [rtpoComparator_le_iff] at h1 h2
  rcases h1 with h | ⟨hpe, h | ⟨hte, hlt⟩⟩ <;>
    rcases h2 with g | ⟨gpe, g | ⟨gte, glt⟩⟩
  · exact absurd g (lt_asymm h)
  · omega
  · omega
  · omega
  · omega
  · omega
  · omega
  · omega
  · exact le_antisymm (not_lt.mp hlt) (not_lt.mp glt)


theorem rtpo_no_pl (events : List PDU)
    (h : ∀ e ∈ events, e.type ≠ "m.room.power_levels") :
    reverseTopologicalPowerOrder events =
      isortBy (fun a b =>
        rtpoComparator { users := some [], users_default := some 0 } a b ≤ 0) events := by
  unfold reverseTopologicalPowerOrder
  rw [List.find?_eq_none.mpr ?_]
  intro e he
  simpa using h e he


theorem rtpo_eq_of_perm (events₁ events₂ : List PDU)
    (hp : List.Perm events₁ events₂)
    (hnp : ∀ e ∈ events₁, e.type ≠ "m.room.power_levels")
    (huniq : ∀ x ∈ events₁, ∀ y ∈ events₁, x.event_id = y.event_id → x = y) :
    reverseTopologicalPowerOrder events₁ = reverseTopologicalPowerOrder events₂ := by
  have hnp₂ : ∀ e ∈ events₂, e.type ≠ "m.room.power_levels" :=
    fun e he => hnp e (hp.mem_iff.mpr he)
  rw [rtpo_no_pl events₁ hnp, rtpo_no_pl events₂ hnp₂]
  have htot : ∀ x y : PDU,
      (decide (rtpoComparator { users := some [], users_default := some 0 } x y ≤ 0)) = false →
      (decide (rtpoComparator { users := some [], users_default := some 0 } y x ≤ 0)) = true := by
    intro x y hxy
    rw [decide_eq_true_iff]
    rcases rtpoComparator_le_total { users := some [], users_default := some 0 } x y with h | h
    · exact absurd (decide_eq_true_iff.mpr h) (by simp [hxy])
    · exact h
  have htrans : ∀ x y z : PDU,
      (decide (rtpoComparator { users := some [], users_default := some 0 } x y ≤ 0)) = true →
      (decide (rtpoComparator { users := some [], users_default := some 0 } y z ≤ 0)) = true →
      (decide (rtpoComparator { users := some [], users_default := some 0 } x z ≤ 0)) = true := by
    intro x y z hxy hyz
    rw [decide_eq_true_iff]
    exact rtpoComparator_le_trans _ x y z (decide_eq_true_iff.mp hxy) (decide_eq_true_iff.mp hyz)
  refine eq_of_sorted_perm_local _ _ _
    (((isortBy_perm _ events₁).trans hp).trans (isortBy_perm _ events₂).symm)
    (isortBy_pairwise _ htot htrans events₁) (isortBy_pairwise _ htot htrans events₂) ?_
  intro a ha b hb hab hba
  have ha2 : a ∈ events₁ := (isortBy_perm _ events₁).mem_iff.mp ha
  have hb2 : b ∈ events₁ := (isortBy_perm _ events₁).mem_iff.mp hb
  exact huniq a ha2 b hb2
    (rtpoComparator_antisymm_id _ a b (decide_eq_true_iff.mp hab) (decide_eq_true_iff.mp hba))


theorem SMap_set_WF (m : RoomStateMap) (hwf : SMapWF m) (e : PDU) (sk : String)
    (hsk : e.state_key = some sk) : SMapWF (m.set (stateKey e.type sk) e) := by
  intro p hp
  rcases mem_assocSet m.entries (stateKey e.type sk) e p hp with hold | rfl
  · exact hwf p hold
  · simp [slotOf, hsk, stateKey]


theorem applyOrdered_invariant :
    ∀ (evs : List PDU) (rv : String) (r₁ r₂ : RoomStateMap),
      SMapWF r₁ → SMapWF r₂ → NodupKeys r₁.entries → NodupKeys r₂.entries →
      (∀ k, r₁.lookup k = r₂.lookup k) →
      SMapWF (applyOrdered rv r₁ evs) ∧ SMapWF (applyOrdered rv r₂ evs) ∧
      NodupKeys (applyOrdered rv r₁ evs).entries ∧
      NodupKeys (applyOrdered rv r₂ evs).entries ∧
      (∀ k, (applyOrdered rv r₁ evs).lookup k = (applyOrdered rv r₂ evs).lookup k)
  | [], rv, r₁, r₂, hw1, hw2, hn1, hn2, hlk => ⟨hw1, hw2, hn1, hn2, hlk⟩
  | e :: rest, rv, r₁, r₂, hw1, hw2, hn1, hn2, hlk => by
    have hview : (fun k => (buildStateMap r₁.values).lookup k) =
        (fun k => (buildStateMap r₂.values).lookup k) :=
      funext (fun k => by
        rw [buildStateMap_values_lookup r₁ hw1 hn1 k, buildStateMap_values_lookup r₂ hw2 hn2 k]
        exact hlk k)
    have hAuth : checkEventAuth e r₁.values (some rv) = checkEventAuth e r₂.values (some rv) := by
      unfold checkEventAuth
      rw [hview]
    unfold applyOrdered
    simp only [List.foldl_cons]
    cases hsk : e.state_key with
    | none =>
      exact applyOrdered_invariant rest rv r₁ r₂ hw1 hw2 hn1 hn2 hlk
    | some sk =>
      simp only []
      by_cases hal : (checkEventAuth e r₁.values (some rv)).allowed = true
      · rw [if_pos hal, if_pos (hAuth ▸ hal)]
        refine applyOrdered_invariant rest rv (r₁.set (stateKey e.type sk) e)
          (r₂.set (stateKey e.type sk) e) (SMap_set_WF r₁ hw1 e sk hsk)
          (SMap_set_WF r₂ hw2 e sk hsk) (nodupKeys_set r₁.entries _ e hn1)
          (nodupKeys_set r₂.entries _ e hn2) ?_
        intro k
        by_cases hk : k = stateKey e.type sk
        · subst hk
          rw [SMap.lookup_set_self, SMap.lookup_set_self]
        · rw [SMap.lookup_set_ne r₁ _ k e hk, SMap.lookup_set_ne r₂ _ k e hk]
          exact hlk k
      · rw [if_neg hal, if_neg (fun h => hal (hAuth ▸ h))]
        exact applyOrdered_invariant rest rv r₁ r₂ hw1 hw2 hn1 hn2 hlk


theorem conflicted_flatten_subset (stateSets : List (List PDU)) :
    ∀ e ∈ (separateState stateSets).2.values.flatten, e ∈ stateSets.flatten := by
  intro e he
  obtain ⟨lst, hlst, helst⟩ := List.mem_flatten.mp he
  obtain ⟨p, hp, rfl⟩ := List.mem_map.mp hlst
  have hlook : (separateState stateSets).2.lookup p.1 = some p.2 :=
    nodupKeys_lookup_of_mem _ p.1 p.2 (separateState_nodup stateSets).2
      hp
  rw [separateState_conflicted_char stateSets p.1] at hlook
  by_cases hcnd : (∃ m ∈ stateSets.map buildStateMap,
      ((m : RoomStateMap).lookup p.1).isSome = true) ∧
      ¬ sepUnconflictedCond (stateSets.map buildStateMap) p.1
  · rw [if_pos hcnd] at hlook
    have hp2 : p.2 = dedupById (eventsForKey (stateSets.map buildStateMap) p.1) [] :=
      (Option.some.inj hlook).symm
    rw [hp2] at helst
    exact (mem_eventsForKey_slot stateSets p.1 e
      (mem_dedupById_subset _ [] e helst)).2
  · rw [if_neg hcnd] at hlook
    exact Option.noConfusion hlook


theorem assoc_nil_iff_lookup_none (l : List ((String × String) × α)) (hnd : NodupKeys l) :
    l = [] ↔ ∀ k, assocLookup l k = none := by
  constructor
  · rintro rfl k
    rfl
  · intro h
    cases l with
    | nil => rfl
    | cons p r =>
      have := nodupKeys_lookup_of_mem (p :: r) p.1 p.2 hnd
        (List.mem_cons_self _ _)
      rw [h p.1] at this
      exact Option.noConfusion this


theorem resolveStateV2_main_eq (stateSets : List (List PDU)) (rv : String)
    (h0 : ¬ stateSets.length = 0) (h1 : ¬ stateSets.length = 1) :
    resolveStateV2 stateSets rv =
      (if (separateState stateSets).2.size = 0 then (separateState stateSets).1.values
       else (applyOrdered rv
          (applyOrdered rv (separateState stateSets).1
            (reverseTopologicalPowerOrder
              ((separateState stateSets).2.values.flatten.filter (fun e => isAuthEvent e))))
          (reverseTopologicalPowerOrder
            ((separateState stateSets).2.values.flatten.filter
              (fun e => !(isAuthEvent e))))).values) := by
  unfold resolveStateV2
  rw [if_neg h0, if_neg h1]


theorem resolveStateV2_perm (stateSets stateSets2 : List (List PDU)) (rv : String)
    (hperm : List.Perm stateSets stateSets2)
    (H1 : ∀ x ∈ stateSets.flatten, ∀ y ∈ stateSets.flatten, x.event_id = y.event_id → x = y)
    (H2 : ∀ e ∈ (separateState stateSets).2.values.flatten,
      e.type ≠ "m.room.power_levels") :
    List.Perm (resolveStateV2 stateSets rv) (resolveStateV2 stateSets2 rv) := by
  by_cases h0 : stateSets.length = 0
  · unfold resolveStateV2
    rw [if_pos h0, if_pos (hperm.length_eq ▸ h0)]
  · by_cases h1 : stateSets.length = 1
    · obtain ⟨S, rfl⟩ := List.length_eq_one.mp h1
      have h2 : stateSets2 = [S] := List.perm_singleton.mp hperm.symm
      subst h2
      exact List.Perm.refl _
    · rw [resolveStateV2_main_eq stateSets rv h0 h1,
        resolveStateV2_main_eq stateSets2 rv (fun h => h0 (hperm.length_eq ▸ h))
          (fun h => h1 (hperm.length_eq ▸ h))]
      have hnd₁ := (separateState_nodup stateSets).2
      have hnd₂ := (separateState_nodup stateSets2).2
      have hconf := conflicted_lookup_perm stateSets stateSets2 hperm H1
      have hjoin : List.Perm (separateState stateSets).2.values.flatten
          (separateState stateSets2).2.values.flatten :=
        assoc_flatten_perm (separateState stateSets).2.entries
          (separateState stateSets2).2.entries hnd₁ hnd₂
          (fun k => (hconf k).1) (fun k l₁ l₂ h₁ h₂ => (hconf k).2 l₁ l₂ h₁ h₂)
      by_cases hsz : (separateState stateSets).2.size = 0
      · have hnil : (separateState stateSets).2.entries = [] :=
          List.length_eq_zero.mp hsz
        have hnil2 : (separateState stateSets2).2.entries = [] := by
          rw [assoc_nil_iff_lookup_none _ hnd₂]
          intro k
          have h₁ : (separateState stateSets).2.lookup k = none :=
            (assoc_nil_iff_lookup_none _ hnd₁).mp hnil k
          have h₂ := (hconf k).1
          rw [h₁] at h₂
          cases hx : (separateState stateSets2).2.lookup k with
          | none => exact hx
          | some v =>
            rw [hx] at h₂
            simp at h₂
        have hsz2 : (separateState stateSets2).2.size = 0 := by
          rw [SMap.size, hnil2]
          rfl
        rw [if_pos hsz, if_pos hsz2]
        have hpent : List.Perm (separateState stateSets).1.entries
            (separateState stateSets2).1.entries :=
          assoc_perm_of_lookup_eq _ _ (separateState_nodup stateSets).1
            (separateState_nodup stateSets2).1
            (unconflicted_lookup_perm stateSets stateSets2 hperm H1)
        exact hpent.map (fun e => e.2)
      · have hsz2 : ¬ (separateState stateSets2).2.size = 0 := by
          intro hz
          refine hsz ?_
          have hnil2 : (separateState stateSets2).2.entries = [] :=
            List.length_eq_zero.mp hz
          have hnil : (separateState stateSets).2.entries = [] := by
            rw [assoc_nil_iff_lookup_none _ hnd₁]
            intro k
            have h₂ : (separateState stateSets2).2.lookup k = none :=
              (assoc_nil_iff_lookup_none _ hnd₂).mp hnil2 k
            have h₃ := (hconf k).1
            rw [h₂] at h₃
            cases hx : (separateState stateSets).2.lookup k with
            | none => exact hx
            | some v =>
              rw [hx] at h₃
              simp at h₃
          rw [SMap.size, hnil]
          rfl
        rw [if_neg hsz, if_neg hsz2]
        have hsubJ := conflicted_flatten_subset stateSets
        have huniqJ : ∀ x ∈ (separateState stateSets).2.values.flatten,
            ∀ y ∈ (separateState stateSets).2.values.flatten,
            x.event_id = y.event_id → x = y :=
          fun x hx y hy => H1 x (hsubJ x hx) y (hsubJ y hy)
        have hsortA : reverseTopologicalPowerOrder
            ((separateState stateSets).2.values.flatten.filter (fun e => isAuthEvent e)) =
            reverseTopologicalPowerOrder
            ((separateState stateSets2).2.values.flatten.filter (fun e => isAuthEvent e)) :=
          rtpo_eq_of_perm _ _ (hjoin.filter _)
            (fun e he => H2 e (List.mem_filter.mp he).1)
            (fun x hx y hy => huniqJ x (List.mem_filter.mp hx).1 y (List.mem_filter.mp hy).1)
        have hsortO : reverseTopologicalPowerOrder
            ((separateState stateSets).2.values.flatten.filter (fun e => !(isAuthEvent e))) =
            reverseTopologicalPowerOrder
            ((separateState stateSets2).2.values.flatten.filter (fun e => !(isAuthEvent e))) :=
          rtpo_eq_of_perm _ _ (hjoin.filter _)
            (fun e he => H2 e (List.mem_filter.mp he).1)
            (fun x hx y hy => huniqJ x (List.mem_filter.mp hx).1 y (List.mem_filter.mp hy).1)
        rw [← hsortA, ← hsortO]
        obtain ⟨hwA1, hwA2, hnA1, hnA2, hlkA⟩ :=
          applyOrdered_invariant
            (reverseTopologicalPowerOrder
              ((separateState stateSets).2.values.flatten.filter (fun e => isAuthEvent e)))
            rv (separateState stateSets).1 (separateState stateSets2).1
            (separateState_WF1 stateSets) (separateState_WF1 stateSets2)
            (separateState_nodup stateSets).1 (separateState_nodup stateSets2).1
            (unconflicted_lookup_perm stateSets stateSets2 hperm H1)
        obtain ⟨-, -, hnO1, hnO2, hlkO⟩ :=
          applyOrdered_invariant
            (reverseTopologicalPowerOrder
              ((separateState stateSets).2.values.flatten.filter (fun e => !(isAuthEvent e))))
            rv _ _ hwA1 hwA2 hnA1 hnA2 hlkA
        exact (assoc_perm_of_lookup_eq _ _ hnO1 hnO2 hlkO).map (fun e => e.2)


/-- C5: for room versions that dispatch to state resolution v2, resolveState is
invariant (up to permutation of the resulting list) under permutation of the
input state sets, provided event IDs uniquely identify events across the input
and no conflicted event is an m.room.power_levels event. -/
theorem resolveState_perm_invariant (roomVersion : String) (ver : RoomVersionBehavior)
    (stateSets stateSets2 : List (List PDU))
    (hver : getRoomVersion roomVersion = some ver)
    (hv2 : ver.stateResolution ≠ "v1")
    (hperm : List.Perm stateSets stateSets2)
    (H1 : ∀ x ∈ stateSets.flatten, ∀ y ∈ stateSets.flatten, x.event_id = y.event_id → x = y)
    (H2 : ∀ e ∈ (separateState stateSets).2.values.flatten,
      e.type ≠ "m.room.power_levels") :
    List.Perm (resolveState roomVersion stateSets) (resolveState roomVersion stateSets2) := by
  unfold resolveState
  rw [hver]
  simp only []
  rw [if_neg hv2, if_neg hv2]
  exact resolveStateV2_perm stateSets stateSets2 roomVersion hperm H1 H2


theorem resolveState_perm_invariant_witness :
    List.Perm (resolveState "10" [[cxCreate], [cxMemberP]])
      (resolveState "10" [[cxMemberP], [cxCreate]]) :=
  resolveState_perm_invariant "10"
    { version := "10", stateResolution := "v2", eventIdFormat := "v4",
      redactionAlgorithm := "v1", knockingSupported := true, restrictedJoinsSupported := true,
      integerPowerLevels := true, updatedRedactionRules := false, authRuleVariant := "v10",
      knockRestrictedSupported := true, stable := true }
    [[cxCreate], [cxMemberP]] [[cxMemberP], [cxCreate]] (by decide) (by decide)
    (by decide) (by decide) (by decide)
